import Mathlib

/-!
# The ia32 macro assembler: tagged values and vector instruction selection

A shallow embedding of `src/codegen/ia32/macro-assembler-ia32.h`.

* A call into the assembler is a value of `Emitted`: the instructions appended
  to the buffer, in order, and how the call ended (`Outcome`).
* The macro-generated vector selectors are functions of the mnemonic `name`,
  one Lean definition for each `#define` of the header.
* The general-purpose helpers (`SmiTag`, `SmiUntag`, `JumpIfSmi`) emit
  instructions whose IA-32 meaning is given by `exec` / `run` on a machine
  `State` of 32-bit words kept as natural numbers below `2^32`.
-/

namespace V8

/-! ## Registers, operands, instructions -/

/-- The general-purpose registers of ia32. -/
inductive Register
  | eax | ecx | edx | ebx | esp | ebp | esi | edi
  deriving DecidableEq, Repr

/-- The vector registers of ia32. -/
inductive XMMRegister
  | xmm0 | xmm1 | xmm2 | xmm3 | xmm4 | xmm5 | xmm6 | xmm7
  deriving DecidableEq, Repr

/-- Scale of an index register in a memory operand. -/
inductive ScaleFactor
  | times_1 | times_2 | times_4 | times_8
  deriving DecidableEq, Repr

/-- The ia32 `Operand`: a register in register mode, or a memory reference
`[base + disp]` or `[base + index * scale + disp]`. -/
inductive Operand
  | reg (r : Register)
  | xmm (x : XMMRegister)
  | mem (base : Register) (disp : Int)
  | memIndexed (base index : Register) (scale : ScaleFactor) (disp : Int)
  deriving DecidableEq, Repr

/-- Rounding mode immediate of `roundps` / `roundpd`. -/
inductive RoundingMode
  | kRoundToNearest | kRoundDown | kRoundUp | kRoundToZero
  deriving DecidableEq, Repr

/-- An argument of a macro-generated selector: the `dst_type` / `src_type`
parameters of the macros range over `XMMRegister`, `Register`, `Operand`,
`uint8_t` and `RoundingMode`. -/
inductive Arg
  | xmm (x : XMMRegister)
  | reg (r : Register)
  | op (o : Operand)
  | imm8 (n : Nat)
  | mode (m : RoundingMode)
  deriving DecidableEq, Repr

/-- Branch conditions used by the helpers. -/
inductive Condition
  | zero | not_zero | equal | not_equal | less | greater_equal
  deriving DecidableEq, Repr

/-- The `Label::Distance` hint of a branch. -/
inductive Distance
  | kNear | kFar
  deriving DecidableEq, Repr

/-- A label is identified by a number. -/
abbrev Label := Nat

/-- An out-of-line routine that emitted code calls, by name. -/
abbrev Routine := String

/-- One emitted instruction. `sse name args` is the assembler call
`name(args...)`, `avx name args` is `v##name(args...)`. The general-purpose
instructions carry the operand forms of the assembler overloads used by the
header: `sub` and `mov` take a register or memory `Operand` as source, the
`Imm` forms take an `Immediate`, `movStore` is `mov(Operand, Register)`.
`bind l` marks the position at which label `l` is bound; it is not an
instruction of the machine. -/
inductive Instr
  | sse (name : String) (args : List Arg)
  | avx (name : String) (args : List Arg)
  | add (dst src : Register)
  | sar (dst : Register) (imm8 : Nat)
  | test (value : Operand) (imm : Nat)
  | j (cc : Condition) (target : Label) (distance : Distance)
  | addImm (dst : Register) (imm : Int)
  | sub (dst : Register) (src : Operand)
  | subImm (dst : Register) (imm : Int)
  | xor_ (dst src : Register)
  | and_ (dst : Register) (imm : Int)
  | andReg (dst src : Register)
  | mov (dst : Register) (src : Operand)
  | movImm (dst : Register) (imm : Int)
  | movStore (dst : Operand) (src : Register)
  | lea (dst : Register) (src : Operand)
  | push (src : Register)
  | pushImm (imm : Int)
  | pop (dst : Register)
  | leave
  | call (target : Routine)
  | bind (l : Label)
  | cmpImm (dst : Register) (imm : Int)
  deriving DecidableEq, Repr

/-! ## The assembler: emitted code and how a call ends -/

/-- How a call into the assembler ends: it returns, it reaches `UNREACHABLE()`,
or a `DCHECK` inside it fails. The last two are fatal. -/
inductive Outcome
  | returned | unreachable | dcheckFailed
  deriving DecidableEq, Repr

/-- The effect of a call: the instructions it appended and its outcome. -/
structure Emitted where
  code : List Instr
  outcome : Outcome
  deriving DecidableEq, Repr

/-- The empty statement. -/
def skip : Emitted := ⟨[], .returned⟩

/-- Append one instruction to the buffer. -/
def emit (i : Instr) : Emitted := ⟨[i], .returned⟩

/-- The statement `UNREACHABLE();`. -/
def UNREACHABLE : Emitted := ⟨[], .unreachable⟩

/-- Sequencing `a; b`: `b` runs only when `a` returned. -/
def Emitted.andThen (a b : Emitted) : Emitted :=
  match a.outcome with
  | .returned => ⟨a.code ++ b.code, b.outcome⟩
  | _ => a

/-- The instruction-set extensions queried by the selectors. -/
inductive CpuFeature
  | AVX | SSE3 | SSSE3 | SSE4_1
  deriving DecidableEq, Repr

/-- What the header takes from outside: the answer of the feature detector for
each extension, whether `DCHECK` macros are compiled in, and whether the
constructor of `CpuFeatureScope` checks that its feature is supported. -/
structure Env where
  avx : Bool
  sse3 : Bool
  ssse3 : Bool
  sse4_1 : Bool
  dchecks : Bool
  scopeChecks : Bool
  deriving DecidableEq, Repr

/-- The query `CpuFeatures::IsSupported(f)`. -/
def Env.IsSupported (env : Env) : CpuFeature → Bool
  | .AVX => env.avx
  | .SSE3 => env.sse3
  | .SSSE3 => env.ssse3
  | .SSE4_1 => env.sse4_1

/-- The statement `DCHECK_EQ(a, b);`: fatal when DCHECKs are compiled in and the
two values differ, nothing otherwise. -/
def DCHECK_EQ {α : Type} [DecidableEq α] (env : Env) (a b : α) : Emitted :=
  if env.dchecks && decide (a ≠ b) then ⟨[], .dcheckFailed⟩ else skip

/-- The declaration `CpuFeatureScope scope(this, f);`: it emits nothing; where
the scope checks its feature, an unsupported feature is fatal. -/
def CpuFeatureScope (env : Env) (f : CpuFeature) : Emitted :=
  if env.scopeChecks && !env.IsSupported f then ⟨[], .dcheckFailed⟩ else skip

/-! ## Tagged small integers -/

/-- Tag of a small integer; `SmiTag` statically asserts `kSmiTag == 0`. -/
def kSmiTag : Nat := 0

/-- Width of the tag; `SmiTag` statically asserts `kSmiTagSize == 1`. -/
def kSmiTagSize : Nat := 1

/-- Mask of the tag bits, `(1 << kSmiTagSize) - 1`. -/
def kSmiTagMask : Nat := (1 <<< kSmiTagSize) - 1

/-- `MacroAssembler::SmiTag(Register reg)`. -/
def SmiTag (reg : Register) : Emitted :=
  emit (.add reg reg)

/-- `TurboAssembler::SmiUntag(Register reg)`. -/
def SmiUntag (reg : Register) : Emitted :=
  emit (.sar reg kSmiTagSize)

/-- `TurboAssembler::JumpIfSmi(Register value, Label* smi_label, distance)`. -/
def JumpIfSmi (value : Register) (smi_label : Label) (distance : Distance := .kFar) :
    Emitted :=
  (emit (.test (.reg value) kSmiTagMask)).andThen (emit (.j .zero smi_label distance))

/-- `TurboAssembler::JumpIfSmi(Operand value, Label* smi_label, distance)`. -/
def JumpIfSmiOperand (value : Operand) (smi_label : Label) (distance : Distance := .kFar) :
    Emitted :=
  (emit (.test value kSmiTagMask)).andThen (emit (.j .zero smi_label distance))

/-- `MacroAssembler::JumpIfNotSmi(Register value, Label* not_smi_label,
distance)`. -/
def JumpIfNotSmi (value : Register) (not_smi_label : Label) (distance : Distance := .kFar) :
    Emitted :=
  (emit (.test (.reg value) kSmiTagMask)).andThen (emit (.j .not_zero not_smi_label distance))

/-- `MacroAssembler::JumpIfNotSmi(Operand value, Label* smi_label, distance)`. -/
def JumpIfNotSmiOperand (value : Operand) (smi_label : Label) (distance : Distance := .kFar) :
    Emitted :=
  (emit (.test value kSmiTagMask)).andThen (emit (.j .not_zero smi_label distance))

/-! ## Meaning of the emitted general-purpose instructions -/

/-- The two's-complement word of a signed integer. -/
def toU32 (v : Int) : Nat := (v % 2 ^ 32).toNat

/-- The signed value of a 32-bit word. -/
def toS32 (w : Nat) : Int := if w % 2 ^ 32 < 2 ^ 31 then (w % 2 ^ 32 : Nat) else (w % 2 ^ 32 : Nat) - 2 ^ 32

/-- The status flags read by the conditional branches. -/
structure Flags where
  zf : Bool
  sf : Bool
  of : Bool
  cf : Bool
  deriving DecidableEq, Repr

/-- Machine state: the eight registers, memory as 32-bit words by address, and
the flags. -/
structure State where
  regs : Register → Nat
  mem : Nat → Nat
  flags : Flags

/-- Write a register. -/
def State.setReg (s : State) (r : Register) (w : Nat) : State :=
  { s with regs := fun q => if q = r then w else s.regs q }

/-- Write the memory word at an address. -/
def State.setMem (s : State) (a : Nat) (w : Nat) : State :=
  { s with mem := fun x => if x = a then w else s.mem x }

/-- Multiplier of a scale factor. -/
def ScaleFactor.factor : ScaleFactor → Nat
  | .times_1 => 1
  | .times_2 => 2
  | .times_4 => 4
  | .times_8 => 8

/-- Effective address of a memory operand, modulo `2^32`. -/
def State.address (s : State) : Operand → Nat
  | .mem base disp => toU32 (s.regs base + disp)
  | .memIndexed base index scale disp =>
      toU32 (s.regs base + s.regs index * scale.factor + disp)
  | _ => 0

/-- The 32-bit word an operand of a general-purpose instruction denotes. -/
def State.readOperand (s : State) : Operand → Nat
  | .reg r => s.regs r
  | .xmm _ => 0
  | o => s.mem (s.address o)

/-- Whether a branch condition holds for the flags. -/
def Condition.holds (f : Flags) : Condition → Bool
  | .zero => f.zf
  | .not_zero => !f.zf
  | .equal => f.zf
  | .not_equal => !f.zf
  | .less => f.sf != f.of
  | .greater_equal => f.sf == f.of

/-- The flags after an addition or subtraction with 32-bit result `r`, given
whether it overflowed as a signed and as an unsigned operation. -/
def arithFlags (r : Nat) (signedOverflow carry : Bool) : Flags :=
  ⟨r == 0, decide (2 ^ 31 ≤ r), signedOverflow, carry⟩

/-- The flags after a bitwise operation with 32-bit result `r`. -/
def logicFlags (r : Nat) : Flags :=
  ⟨r == 0, decide (2 ^ 31 ≤ r), false, false⟩

/-- Subtract a word from a register, modulo `2^32`, setting the flags. -/
def State.subtract (s : State) (dst : Register) (b : Nat) : State :=
  let r := toU32 ((s.regs dst : Int) - (b : Int))
  { s.setReg dst r with
      flags := arithFlags r (decide (toS32 (s.regs dst) - toS32 b ≠ toS32 r))
        (decide (s.regs dst % 2 ^ 32 < b % 2 ^ 32)) }

/-- Push a word: the stack pointer goes down by 4, then the word is stored at
the new top. -/
def State.pushWord (s : State) (w : Nat) : State :=
  let sp := toU32 ((s.regs .esp : Int) - 4)
  (s.setMem sp w).setReg .esp sp

/-- Pop a word into a register: the word at the top is read, the stack pointer
goes up by 4, then the register is written. -/
def State.popInto (s : State) (dst : Register) : State :=
  let w := s.mem (s.regs .esp % 2 ^ 32)
  (s.setReg .esp ((s.regs .esp + 4) % 2 ^ 32)).setReg dst w

/-- One instruction: the next state, and the label branched to if a branch is
taken. `add` wraps modulo `2^32`; `sar` shifts the signed value right by the
count modulo 32, rounding down, and a count of 0 changes nothing; `test` sets
the flags from the bitwise and of its operands and writes nothing; vector
instructions leave this state alone. `leave` is `mov esp, ebp` then `pop ebp`;
`cmp` sets the flags of the subtraction and writes no register.
The effect of a called routine is not part of one instruction: `call` and the
marker `bind` are left to the runner (`runForward`) and change nothing here. -/
def exec (s : State) : Instr → State × Option Label
  | .add dst src =>
      let r := (s.regs dst + s.regs src) % 2 ^ 32
      ({ s.setReg dst r with
          flags := ⟨r == 0, decide (2 ^ 31 ≤ r),
                    decide (toS32 (s.regs dst) + toS32 (s.regs src) ≠ toS32 r),
                    decide (2 ^ 32 ≤ s.regs dst % 2 ^ 32 + s.regs src % 2 ^ 32)⟩ }, none)
  | .sar dst imm8 =>
      let count := imm8 % 32
      let r := toU32 (toS32 (s.regs dst) / 2 ^ count)
      if count = 0 then (s, none)
      else
        ({ s.setReg dst r with
            flags := ⟨r == 0, decide (2 ^ 31 ≤ r), false,
                      (s.regs dst % 2 ^ 32).testBit (count - 1)⟩ }, none)
  | .test value imm =>
      let r := (s.readOperand value &&& imm) % 2 ^ 32
      ({ s with flags := ⟨r == 0, decide (2 ^ 31 ≤ r), false, false⟩ }, none)
  | .j cc target _ => (s, if cc.holds s.flags then some target else none)
  | .sse _ _ => (s, none)
  | .avx _ _ => (s, none)
  | .addImm dst imm =>
      let r := toU32 ((s.regs dst : Int) + imm)
      ({ s.setReg dst r with
          flags := arithFlags r (decide (toS32 (s.regs dst) + toS32 (toU32 imm) ≠ toS32 r))
            (decide (2 ^ 32 ≤ s.regs dst % 2 ^ 32 + toU32 imm)) }, none)
  | .sub dst src => (s.subtract dst (s.readOperand src), none)
  | .subImm dst imm => (s.subtract dst (toU32 imm), none)
  | .xor_ dst src =>
      let r := (s.regs dst ^^^ s.regs src) % 2 ^ 32
      ({ s.setReg dst r with flags := logicFlags r }, none)
  | .and_ dst imm =>
      let r := (s.regs dst &&& toU32 imm) % 2 ^ 32
      ({ s.setReg dst r with flags := logicFlags r }, none)
  | .andReg dst src =>
      let r := (s.regs dst &&& s.regs src) % 2 ^ 32
      ({ s.setReg dst r with flags := logicFlags r }, none)
  | .mov dst src => (s.setReg dst (s.readOperand src), none)
  | .movImm dst imm => (s.setReg dst (toU32 imm), none)
  | .movStore dst src =>
      match dst with
      | .reg r => (s.setReg r (s.regs src), none)
      | .xmm _ => (s, none)
      | o => (s.setMem (s.address o) (s.regs src), none)
  | .lea dst src => (s.setReg dst (s.address src), none)
  | .push src => (s.pushWord (s.regs src), none)
  | .pushImm imm => (s.pushWord (toU32 imm), none)
  | .pop dst => (s.popInto dst, none)
  | .leave => ((s.setReg .esp (s.regs .ebp)).popInto .ebp, none)
  | .call _ => (s, none)
  | .bind _ => (s, none)
  | .cmpImm dst imm => ({ s with flags := (s.subtract dst (toU32 imm)).flags }, none)

/-- Run straight-line code until its end or its first taken branch. -/
def run (s : State) : List Instr → State × Option Label
  | [] => (s, none)
  | i :: rest =>
      match exec s i with
      | (t, some l) => (t, some l)
      | (t, none) => run t rest

/-- A state whose registers all hold the word of `-5`. -/
def stateMinusFive : State :=
  { regs := fun _ => 4294967291, mem := fun _ => 0, flags := ⟨false, false, false, false⟩ }

/-! ## The macro-generated vector selectors

The header defines several macros more than once under one name; the later
definitions live in the namespaces `TwoOperand` (line 394 to 464: the AVX form
reuses `dst` as first source) and `NonSSE2` (line 562 to 637). -/

/-- The macro `AVX_OP3_WITH_TYPE` of line 304: "Instructions whose SSE and AVX
take the same number and type of operands." -/
def AVX_OP3_WITH_TYPE (env : Env) (name : String) (dst src1 src2 : Arg) : Emitted :=
  if env.IsSupported .AVX then
    (CpuFeatureScope env .AVX).andThen (emit (.avx name [dst, src1, src2]))
  else
    emit (.sse name [dst, src1, src2])

/-- The macro `AVX_OP3_WITH_TYPE_SCOPE` of line 322: "Same as AVX_OP3_WITH_TYPE
above but with SSE scope." -/
def AVX_OP3_WITH_TYPE_SCOPE (env : Env) (name : String) (sse_scope : CpuFeature)
    (dst src1 src2 : Arg) : Emitted :=
  if env.IsSupported .AVX then
    (CpuFeatureScope env .AVX).andThen (emit (.avx name [dst, src1, src2]))
  else
    (CpuFeatureScope env sse_scope).andThen (emit (.sse name [dst, src1, src2]))

/-- The macro `AVX_OP2_WITH_TYPE` of line 348: "SSE/SSE2 instructions with AVX
version." -/
def AVX_OP2_WITH_TYPE (env : Env) (name : String) (dst src : Arg) : Emitted :=
  if env.IsSupported .AVX then
    (CpuFeatureScope env .AVX).andThen (emit (.avx name [dst, src]))
  else
    emit (.sse name [dst, src])

/-- The macro `AVX_OP3_WITH_TYPE` of line 396, two operands: "Only use these
macros when non-destructive source of AVX version is not needed." -/
def TwoOperand.AVX_OP3_WITH_TYPE (env : Env) (name : String) (dst : XMMRegister) (src : Arg) :
    Emitted :=
  if env.IsSupported .AVX then
    (CpuFeatureScope env .AVX).andThen (emit (.avx name [.xmm dst, .xmm dst, src]))
  else
    emit (.sse name [.xmm dst, src])

/-- The macro `AVX_OP2_WITH_TYPE_SCOPE` of line 444: "Same as AVX_OP3_WITH_TYPE
but supports a CpuFeatureScope". The `if` / `else if` has no final `else`. -/
def TwoOperand.AVX_OP2_WITH_TYPE_SCOPE (env : Env) (name : String) (sse_scope : CpuFeature)
    (dst : XMMRegister) (src : Arg) : Emitted :=
  if env.IsSupported .AVX then
    (CpuFeatureScope env .AVX).andThen (emit (.avx name [.xmm dst, .xmm dst, src]))
  else if env.IsSupported sse_scope then
    (CpuFeatureScope env sse_scope).andThen (emit (.sse name [.xmm dst, src]))
  else
    skip

/-- The macro `AVX_PACKED_OP3_WITH_TYPE` of line 467: "Only use this macro when
dst and src1 is the same in SSE case." -/
def AVX_PACKED_OP3_WITH_TYPE (env : Env) (name : String) (dst src1 : XMMRegister)
    (src2 : Arg) : Emitted :=
  if env.IsSupported .AVX then
    (CpuFeatureScope env .AVX).andThen (emit (.avx name [.xmm dst, .xmm src1, src2]))
  else
    (DCHECK_EQ env dst src1).andThen (emit (.sse name [.xmm dst, src2]))

/-- The macro `AVX_OP3_WITH_MOVE` of line 544: "Will move src1 to dst if
dst != src1." -/
def AVX_OP3_WITH_MOVE (env : Env) (name : String) (dst src1 : XMMRegister) (src2 : Arg) :
    Emitted :=
  if env.IsSupported .AVX then
    (CpuFeatureScope env .AVX).andThen (emit (.avx name [.xmm dst, .xmm src1, src2]))
  else
    (if dst ≠ src1 then emit (.sse "movaps" [.xmm dst, .xmm src1]) else skip).andThen
      (emit (.sse name [.xmm dst, src2]))

/-- The macro `AVX_OP2_WITH_TYPE_SCOPE` of line 563: "Non-SSE2 instructions."
Each branch ends in `return`; the fall-through is `UNREACHABLE()`. -/
def NonSSE2.AVX_OP2_WITH_TYPE_SCOPE (env : Env) (name : String) (sse_scope : CpuFeature)
    (dst : XMMRegister) (src : Arg) : Emitted :=
  if env.IsSupported .AVX then
    (CpuFeatureScope env .AVX).andThen (emit (.avx name [.xmm dst, src]))
  else if env.IsSupported sse_scope then
    (CpuFeatureScope env sse_scope).andThen (emit (.sse name [.xmm dst, src]))
  else
    UNREACHABLE

/-- The macro `AVX_OP3_WITH_TYPE_SCOPE` of line 610. Each branch ends in
`return`; the fall-through is `UNREACHABLE()`. -/
def NonSSE2.AVX_OP3_WITH_TYPE_SCOPE (env : Env) (name : String) (sse_scope : CpuFeature)
    (dst src1 : XMMRegister) (src2 : Arg) : Emitted :=
  if env.IsSupported .AVX then
    (CpuFeatureScope env .AVX).andThen (emit (.avx name [.xmm dst, .xmm src1, src2]))
  else if env.IsSupported sse_scope then
    ((CpuFeatureScope env sse_scope).andThen (DCHECK_EQ env dst src1)).andThen
      (emit (.sse name [.xmm dst, src2]))
  else
    UNREACHABLE

/-! ### Instantiations named in the properties below -/

/-- Line 556: `AVX_OP3_WITH_MOVE(Cmpeqps, cmpeqps, XMMRegister, XMMRegister)`. -/
def Cmpeqps (env : Env) (dst src1 src2 : XMMRegister) : Emitted :=
  AVX_OP3_WITH_MOVE env "cmpeqps" dst src1 (.xmm src2)

/-- Line 557: `AVX_OP3_WITH_MOVE(Movlps, movlps, XMMRegister, Operand)`. -/
def Movlps (env : Env) (dst src1 : XMMRegister) (src2 : Operand) : Emitted :=
  AVX_OP3_WITH_MOVE env "movlps" dst src1 (.op src2)

/-- Line 558: `AVX_OP3_WITH_MOVE(Movhps, movhps, XMMRegister, Operand)`. -/
def Movhps (env : Env) (dst src1 : XMMRegister) (src2 : Operand) : Emitted :=
  AVX_OP3_WITH_MOVE env "movhps" dst src1 (.op src2)

/-- Line 559: `AVX_OP3_WITH_MOVE(Pmaddwd, pmaddwd, XMMRegister, Operand)`. -/
def Pmaddwd (env : Env) (dst src1 : XMMRegister) (src2 : Operand) : Emitted :=
  AVX_OP3_WITH_MOVE env "pmaddwd" dst src1 (.op src2)

/-- Line 483: `AVX_PACKED_OP3(Addps, addps)`, the register form. -/
def Addps (env : Env) (dst src1 src2 : XMMRegister) : Emitted :=
  AVX_PACKED_OP3_WITH_TYPE env "addps" dst src1 (.xmm src2)

/-- Line 531: `AVX_PACKED_OP3_WITH_TYPE(Psllw, psllw, XMMRegister, uint8_t)`. -/
def Psllw (env : Env) (dst src1 : XMMRegister) (src2 : Nat) : Emitted :=
  AVX_PACKED_OP3_WITH_TYPE env "psllw" dst src1 (.imm8 src2)

/-- Line 631: `AVX_OP3_XO_SSE4(Pmaxsd, pmaxsd)`, the register form. -/
def Pmaxsd (env : Env) (dst src1 src2 : XMMRegister) : Emitted :=
  NonSSE2.AVX_OP3_WITH_TYPE_SCOPE env "pmaxsd" .SSE4_1 dst src1 (.xmm src2)

/-- Line 630: `AVX_OP3_WITH_TYPE_SCOPE(Haddps, haddps, XMMRegister, Operand, SSE3)`. -/
def Haddps (env : Env) (dst src1 : XMMRegister) (src2 : Operand) : Emitted :=
  NonSSE2.AVX_OP3_WITH_TYPE_SCOPE env "haddps" .SSE3 dst src1 (.op src2)

/-- Line 459: `AVX_OP2_XO(Psignb, psignb, SSSE3)`, the register form. -/
def Psignb (env : Env) (dst src : XMMRegister) : Emitted :=
  TwoOperand.AVX_OP2_WITH_TYPE_SCOPE env "psignb" .SSSE3 dst (.xmm src)

/-- Line 334: `AVX_OP3_WITH_TYPE_SCOPE(Pextrb, pextrb, Register, XMMRegister,
uint8_t, SSE4_1)`. -/
def Pextrb (env : Env) (dst : Register) (src1 : XMMRegister) (src2 : Nat) : Emitted :=
  AVX_OP3_WITH_TYPE_SCOPE env "pextrb" .SSE4_1 (.reg dst) (.xmm src1) (.imm8 src2)

/-- Line 599: `AVX_OP2_XO_SSE4(Ptest, ptest)`, the register form. -/
def Ptest (env : Env) (dst src : XMMRegister) : Emitted :=
  NonSSE2.AVX_OP2_WITH_TYPE_SCOPE env "ptest" .SSE4_1 dst (.xmm src)

/-- Line 379: `AVX_OP2_WITH_TYPE(Movaps, movaps, XMMRegister, XMMRegister)`. -/
def Movaps (env : Env) (dst src : XMMRegister) : Emitted :=
  AVX_OP2_WITH_TYPE env "movaps" (.xmm dst) (.xmm src)

/-- Line 425: `AVX_OP3_XO(Pxor, pxor)`, the register form. -/
def Pxor (env : Env) (dst src : XMMRegister) : Emitted :=
  TwoOperand.AVX_OP3_WITH_TYPE env "pxor" dst (.xmm src)

/-! ### Configurations used as concrete inputs -/

/-- Baseline only: no AVX and none of the later SSE extensions; DCHECKs and the
scope check compiled out. -/
def baselineRelease : Env :=
  { avx := false, sse3 := false, ssse3 := false, sse4_1 := false,
    dchecks := false, scopeChecks := false }

/-- Baseline only, with DCHECKs and the scope check compiled in. -/
def baselineDebug : Env :=
  { baselineRelease with dchecks := true, scopeChecks := true }

/-- All SSE extensions but no AVX, checks compiled in. -/
def sse4Debug : Env :=
  { avx := false, sse3 := true, ssse3 := true, sse4_1 := true,
    dchecks := true, scopeChecks := true }

/-- All SSE extensions but no AVX, checks compiled out. -/
def sse4Release : Env :=
  { sse4Debug with dchecks := false, scopeChecks := false }

/-- AVX and all SSE extensions, checks compiled in. -/
def avxDebug : Env :=
  { sse4Debug with avx := true }

/-- AVX supported but none of SSE3, SSSE3, SSE4_1 reported, checks compiled in. -/
def avxOnlyDebug : Env :=
  { baselineDebug with avx := true }

/-- Number of instructions in `code` that are the register move `movaps`
between two vector registers. -/
def moveCount (code : List Instr) : Nat :=
  code.countP fun i =>
    match i with
    | .sse n [.xmm _, .xmm _] => n == "movaps"
    | _ => false

/-! ## Meaning of the emitted vector instructions

The reading under which the two encodings of one operation are compared: a
binary operation `f` on register contents, `v-name dst, a, b` as
`dst := f(a, b)`, `name dst, b` as `dst := f(dst, b)`, `movaps dst, a` as
`dst := a`. -/

/-- Contents of the vector registers, and of every other source argument
(memory operands, immediates), which the instructions below never write. -/
structure VecState (α : Type) where
  xmm : XMMRegister → α
  other : Arg → α

/-- The vector register an argument names, if any: an `XMMRegister`, or an
`Operand` in register mode built from one. -/
def Arg.xmmRegister : Arg → Option XMMRegister
  | .xmm r => some r
  | .op (.xmm r) => some r
  | _ => none

/-- The value a source argument denotes. -/
def VecState.read {α : Type} (s : VecState α) (a : Arg) : α :=
  match a.xmmRegister with
  | some r => s.xmm r
  | none => s.other a

/-- Write a vector register. -/
def VecState.write {α : Type} (s : VecState α) (r : XMMRegister) (v : α) : VecState α :=
  { s with xmm := fun q => if q = r then v else s.xmm q }

/-- One vector instruction under the reading above; anything else is a no-op. -/
def execVec {α : Type} (f : α → α → α) (s : VecState α) : Instr → VecState α
  | .avx _ [.xmm dst, a, b] => s.write dst (f (s.read a) (s.read b))
  | .sse n [.xmm dst, b] =>
      if n = "movaps" then s.write dst (s.read b)
      else s.write dst (f (s.xmm dst) (s.read b))
  | _ => s

/-- Run a sequence of vector instructions. -/
def runVec {α : Type} (f : α → α → α) (s : VecState α) (code : List Instr) : VecState α :=
  code.foldl (execVec f) s

/-- Lane-free picture of `cmpeqps`: all ones (here `1`) when the two sources
are equal, `0` otherwise. -/
def cmpeq (a b : Nat) : Nat := if a = b then 1 else 0

/-- A state in which register `xmm_i` holds `i`. -/
def vecStateIndex : VecState Nat :=
  { xmm := fun r =>
      match r with
      | .xmm0 => 0 | .xmm1 => 1 | .xmm2 => 2 | .xmm3 => 3
      | .xmm4 => 4 | .xmm5 => 5 | .xmm6 => 6 | .xmm7 => 7,
    other := fun _ => 0 }

/-! ### Every macro-generated selector at once -/

/-- A call of a macro-generated selector: the macro that generated it, its
mnemonic, its SSE scope where the macro has one, and its operands. -/
inductive Selector
  | op3 (name : String) (dst src1 src2 : Arg)
  | op3Scope (name : String) (sse_scope : CpuFeature) (dst src1 src2 : Arg)
  | op2 (name : String) (dst src : Arg)
  | twoOperandOp3 (name : String) (dst : XMMRegister) (src : Arg)
  | twoOperandOp2Scope (name : String) (sse_scope : CpuFeature) (dst : XMMRegister) (src : Arg)
  | packedOp3 (name : String) (dst src1 : XMMRegister) (src2 : Arg)
  | op3WithMove (name : String) (dst src1 : XMMRegister) (src2 : Arg)
  | nonSSE2Op2Scope (name : String) (sse_scope : CpuFeature) (dst : XMMRegister) (src : Arg)
  | nonSSE2Op3Scope (name : String) (sse_scope : CpuFeature) (dst src1 : XMMRegister)
      (src2 : Arg)
  deriving DecidableEq, Repr

/-- What the call emits: the body of the generating macro. -/
def Selector.emitted (env : Env) : Selector → Emitted
  | .op3 name dst src1 src2 => AVX_OP3_WITH_TYPE env name dst src1 src2
  | .op3Scope name scope dst src1 src2 => AVX_OP3_WITH_TYPE_SCOPE env name scope dst src1 src2
  | .op2 name dst src => AVX_OP2_WITH_TYPE env name dst src
  | .twoOperandOp3 name dst src => TwoOperand.AVX_OP3_WITH_TYPE env name dst src
  | .twoOperandOp2Scope name scope dst src =>
      TwoOperand.AVX_OP2_WITH_TYPE_SCOPE env name scope dst src
  | .packedOp3 name dst src1 src2 => AVX_PACKED_OP3_WITH_TYPE env name dst src1 src2
  | .op3WithMove name dst src1 src2 => AVX_OP3_WITH_MOVE env name dst src1 src2
  | .nonSSE2Op2Scope name scope dst src =>
      NonSSE2.AVX_OP2_WITH_TYPE_SCOPE env name scope dst src
  | .nonSSE2Op3Scope name scope dst src1 src2 =>
      NonSSE2.AVX_OP3_WITH_TYPE_SCOPE env name scope dst src1 src2

/-- The `dst` argument the caller passed. -/
def Selector.dst : Selector → Arg
  | .op3 _ dst _ _ => dst
  | .op3Scope _ _ dst _ _ => dst
  | .op2 _ dst _ => dst
  | .twoOperandOp3 _ dst _ => .xmm dst
  | .twoOperandOp2Scope _ _ dst _ => .xmm dst
  | .packedOp3 _ dst _ _ => .xmm dst
  | .op3WithMove _ dst _ _ => .xmm dst
  | .nonSSE2Op2Scope _ _ dst _ => .xmm dst
  | .nonSSE2Op3Scope _ _ dst _ _ => .xmm dst

/-- The destination operand of a vector instruction: the first argument of the
assembler call, in the SSE and in the AVX form. -/
def Instr.destination : Instr → Option Arg
  | .sse _ (d :: _) => some d
  | .avx _ (d :: _) => some d
  | _ => none

/-! ## Stack space, constants, field operands -/

/-- The statement `DCHECK_GE(a, b);`: fatal when DCHECKs are compiled in and
`a < b`, nothing otherwise. -/
def DCHECK_GE (env : Env) (a b : Int) : Emitted :=
  if env.dchecks && decide (a < b) then ⟨[], .dcheckFailed⟩ else skip

/-- `TurboAssembler::AllocateStackSpace(Register bytes)`, the build without
`V8_OS_WIN`. -/
def AllocateStackSpaceRegister (bytes : Register) : Emitted :=
  emit (.sub .esp (.reg bytes))

/-- `TurboAssembler::AllocateStackSpace(int bytes)`, the build without
`V8_OS_WIN`. -/
def AllocateStackSpace (env : Env) (bytes : Int) : Emitted :=
  (DCHECK_GE env bytes 0).andThen
    (if bytes = 0 then skip else emit (.subImm .esp bytes))

/-- `MacroAssembler::Set(Register dst, int32_t x)`. -/
def Set (dst : Register) (x : Int) : Emitted :=
  if x = 0 then emit (.xor_ dst dst) else emit (.movImm dst x)

/-- Modelled from the spec: the constant `kHeapObjectTag` is declared outside
the sources; a heap-object pointer is the object's start plus this tag, and its
least-significant bit is 1. -/
def kHeapObjectTag : Int := 1

/-- `FieldOperand(Register object, int offset)`. -/
def FieldOperand (object : Register) (offset : Int) : Operand :=
  .mem object (offset - kHeapObjectTag)

/-- `FieldOperand(Register object, Register index, ScaleFactor scale,
int offset)`. -/
def FieldOperandIndexed (object index : Register) (scale : ScaleFactor) (offset : Int) :
    Operand :=
  .memIndexed object index scale (offset - kHeapObjectTag)

/-- Whether an operand is a memory reference. -/
def Operand.isMemory : Operand → Bool
  | .mem _ _ => true
  | .memIndexed _ _ _ _ => true
  | _ => false

/-- Whether executing the instruction reads or writes memory. -/
def Instr.accessesMemory : Instr → Bool
  | .sse _ args | .avx _ args =>
      args.any fun a =>
        match a with
        | .op o => o.isMemory
        | _ => false
  | .test value _ => value.isMemory
  | .sub _ src | .mov _ src => src.isMemory
  | .movStore dst _ => dst.isMemory
  | .push _ | .pushImm _ | .pop _ | .leave | .call _ => true
  | _ => false

/-- A state with `esp = 0x1000`, every other register 0 and memory all 0. -/
def stateStack : State :=
  { regs := fun r => if r = .esp then 4096 else 0, mem := fun _ => 0,
    flags := ⟨false, false, false, false⟩ }

/-- A state in which `eax` holds the tagged pointer of the object at `0x2000`
and `ecx` holds the index 3. -/
def stateTagged : State :=
  { regs := fun r => if r = .eax then 8193 else if r = .ecx then 3 else 0,
    mem := fun _ => 0, flags := ⟨false, false, false, false⟩ }

/-! ## Running code with labels and calls -/

/-- The result of running emitted code: the final state, the label control left
to if a branch was taken to a label not bound further down, and the routines
called, in order. -/
structure Trace where
  state : State
  exit : Option Label
  calls : List Routine

/-- Run emitted code with forward branches. A taken branch to `l` skips ahead to
the position `bind l` and execution goes on from there; `call r` runs the
routine `r`, whose effect on the state is `callee r`, and goes on with the next
instruction. The first argument is the label being skipped to, if any. -/
def runForward (callee : Routine → State → State) :
    Option Label → State → List Instr → Trace
  | none, s, [] => ⟨s, none, []⟩
  | some l, s, [] => ⟨s, some l, []⟩
  | some l, s, .bind l' :: rest =>
      if l' = l then runForward callee none s rest else runForward callee (some l) s rest
  | some l, s, _ :: rest => runForward callee (some l) s rest
  | none, s, .call r :: rest =>
      let t := runForward callee none (callee r s) rest
      { t with calls := r :: t.calls }
  | none, s, i :: rest => runForward callee (exec s i).2 (exec s i).1 rest

/-! ## Frames, C calls and the write barrier

The bodies of `EnterFrame`, `LeaveFrame`, `PrepareCallCFunction`,
`CallCFunction`, `CheckPageFlag`, `CallRecordWriteStub`, `RecordWrite` and
`RecordWriteField` are declared in the header and defined outside the sources. -/

/-- Modelled from the spec: `StackFrame::Type`, the frame type (JS call,
exit-to-native, entry, construct, ...), is declared outside the sources; a type
is identified by its number. -/
abbrev StackFrameType := Nat

/-- Modelled from the spec: `StackFrame::TypeToMarker` is defined outside the
sources; the frame-type marker understood by the stack walker, here the number
of the type. -/
def TypeToMarker (type : StackFrameType) : Int := type

/-- Modelled from the spec: the body of `TurboAssembler::EnterFrame` is outside
the sources. The fixed prologue of a managed call frame: save the frame
pointer, chain it to the stack pointer, tag the frame with its frame-type
marker. -/
def EnterFrame (type : StackFrameType) : Emitted :=
  ((emit (.push .ebp)).andThen (emit (.mov .ebp (.reg .esp)))).andThen
    (emit (.pushImm (TypeToMarker type)))

/-- Modelled from the spec: the body of `TurboAssembler::LeaveFrame` is outside
the sources. The fixed epilogue of a managed call frame: drop the frame and
restore the saved frame pointer. -/
def LeaveFrame (_type : StackFrameType) : Emitted :=
  emit .leave

/-- Modelled from the spec: `kSystemPointerSize` is declared outside the
sources; arguments are word sized and the target has 32-bit words. -/
def kSystemPointerSize : Int := 4

/-- Modelled from the spec: the body of `TurboAssembler::PrepareCallCFunction`
is outside the sources. With a required boundary `frame_alignment` (0 for
none): keep the old stack pointer in `scratch`, make room for `num_arguments`
word-sized argument slots and one more word, realign the stack pointer to the
boundary, and store the old stack pointer in the word above the argument slots;
without a boundary, only make room for the argument slots. -/
def PrepareCallCFunction (env : Env) (frame_alignment : Nat) (num_arguments : Int)
    (scratch : Register) : Emitted :=
  if frame_alignment ≠ 0 then
    (((emit (.mov scratch (.reg .esp))).andThen
      (AllocateStackSpace env ((num_arguments + 1) * kSystemPointerSize))).andThen
      (emit (.and_ .esp (-(frame_alignment : Int))))).andThen
      (emit (.movStore (.mem .esp (num_arguments * kSystemPointerSize)) scratch))
  else
    AllocateStackSpace env (num_arguments * kSystemPointerSize)

/-- Modelled from the spec: the body of `TurboAssembler::CallCFunction` is
outside the sources. Call the function, then clean up the space allocated by
`PrepareCallCFunction`: reload the stack pointer saved above the argument slots,
or, without a boundary, add the size of the argument slots back. -/
def CallCFunction (frame_alignment : Nat) (function : Routine) (num_arguments : Int) :
    Emitted :=
  (emit (.call function)).andThen
    (if frame_alignment ≠ 0 then
      emit (.mov .esp (.mem .esp (num_arguments * kSystemPointerSize)))
    else
      emit (.addImm .esp (num_arguments * kSystemPointerSize)))

/-- The enumeration `SmiCheck` of the header. -/
inductive SmiCheck
  | INLINE_SMI_CHECK | OMIT_SMI_CHECK
  deriving DecidableEq, Repr

/-- The enumeration `RememberedSetAction` of the header. -/
inductive RememberedSetAction
  | EMIT_REMEMBERED_SET | OMIT_REMEMBERED_SET
  deriving DecidableEq, Repr

/-- Modelled from the spec: `SaveFPRegsMode` is declared outside the sources;
whether vector registers are saved around the barrier call. -/
inductive SaveFPRegsMode
  | kDontSaveFPRegs | kSaveFPRegs
  deriving DecidableEq, Repr

/-- Modelled from the spec: the layout of a page header is declared outside the
sources: the mask of the address bits within a page, the offset of the flags
word from the start of the page, and the two flag masks the barrier tests. -/
structure MemoryChunk where
  kPageAlignmentMask : Nat
  kFlagsOffset : Int
  kPointersToHereAreInterestingMask : Nat
  kPointersFromHereAreInterestingMask : Nat

/-- Modelled from the spec: the body of `TurboAssembler::CheckPageFlag` is
outside the sources. Compute the start of the page of `object` in `scratch`,
test the flags word of the page against `mask`, branch to `condition_met` on
`cc`. -/
def CheckPageFlag (chunk : MemoryChunk) (object scratch : Register) (mask : Nat)
    (cc : Condition) (condition_met : Label) (distance : Distance := .kFar) : Emitted :=
  ((if scratch = object then
      emit (.and_ scratch (-(chunk.kPageAlignmentMask : Int) - 1))
    else
      (emit (.movImm scratch (-(chunk.kPageAlignmentMask : Int) - 1))).andThen
        (emit (.andReg scratch object))).andThen
    (emit (.test (.mem scratch chunk.kFlagsOffset) mask))).andThen
    (emit (.j cc condition_met distance))

/-- The out-of-line record-write barrier routine. -/
def recordWriteStub : Routine := "RecordWrite"

/-- Modelled from the spec: the body of `TurboAssembler::CallRecordWriteStub`
is outside the sources. The call of the out-of-line barrier routine. -/
def CallRecordWriteStub (_object _address : Register)
    (_remembered_set_action : RememberedSetAction) (_fp_mode : SaveFPRegsMode) : Emitted :=
  emit (.call recordWriteStub)

/-- Modelled from the spec: the body of `MacroAssembler::RecordWrite` is
outside the sources. The fast inline checks, each leaving to `done`: is the
stored value a small integer (when `smi_check` asks for it), is the page of the
value or of the object not interesting; then the call of the out-of-line
barrier routine; `done` is bound after the call. -/
def RecordWrite (chunk : MemoryChunk) (object address value : Register)
    (save_fp : SaveFPRegsMode) (remembered_set_action : RememberedSetAction)
    (smi_check : SmiCheck) (done : Label) : Emitted :=
  (((((if smi_check = .INLINE_SMI_CHECK then JumpIfSmi value done .kNear else skip).andThen
    (CheckPageFlag chunk value value chunk.kPointersToHereAreInterestingMask .zero done
      .kNear)).andThen
    (CheckPageFlag chunk object value chunk.kPointersFromHereAreInterestingMask .zero done
      .kNear)).andThen
    (CallRecordWriteStub object address remembered_set_action save_fp)).andThen
    (emit (.bind done)))

/-- Modelled from the spec: the body of `MacroAssembler::RecordWriteField` is
outside the sources. Skip the barrier when the stored value is a small integer
(when `smi_check` asks for it), compute the address of the field in `scratch`,
and hand over to `RecordWrite` without a second small-integer check; `done` is
bound at the end, `inner_done` is the label of the inner `RecordWrite`. -/
def RecordWriteField (chunk : MemoryChunk) (object : Register) (offset : Int)
    (value scratch : Register) (save_fp : SaveFPRegsMode)
    (remembered_set_action : RememberedSetAction) (smi_check : SmiCheck)
    (done inner_done : Label) : Emitted :=
  (((if smi_check = .INLINE_SMI_CHECK then JumpIfSmi value done else skip).andThen
    (emit (.lea scratch (FieldOperand object offset)))).andThen
    (RecordWrite chunk object scratch value save_fp remembered_set_action .OMIT_SMI_CHECK
      inner_done)).andThen
    (emit (.bind done))

/-- A C function that clobbers `eax`, `ecx` and `edx` and keeps everything
else. -/
def clobberingCallee (_r : Routine) (s : State) : State :=
  ((s.setReg .eax 7).setReg .ecx 8).setReg .edx 9

/-- A page layout with 256 KB pages, the flags word at offset 4 and the two
interest flags in bits 1 and 2. -/
def chunk256K : MemoryChunk :=
  { kPageAlignmentMask := 262143, kFlagsOffset := 4,
    kPointersToHereAreInterestingMask := 2, kPointersFromHereAreInterestingMask := 4 }

/-- A state for the barrier: `eax` holds the tagged object `0x40001`, `ebx` the
stored value, and every page has both interest flags set. -/
def stateBarrier (value : Nat) : State :=
  { regs := fun r => if r = .eax then 262145 else if r = .ebx then value else 0,
    mem := fun _ => 6, flags := ⟨false, false, false, false⟩ }

/-- An instruction that is neither a call nor a label position. -/
def Instr.isPlain : Instr → Bool
  | .call _ => false
  | .bind _ => false
  | _ => true

/-- The flags word of the page that the pointer `pointer` lies in: the word at
offset `kFlagsOffset` from the pointer with its in-page bits masked off. -/
def MemoryChunk.pageFlags (chunk : MemoryChunk) (s : State) (pointer : Nat) : Nat :=
  s.mem (toU32 (((pointer &&& toU32 (-(chunk.kPageAlignmentMask : Int) - 1)) % 2 ^ 32 : Nat)
    + chunk.kFlagsOffset))

/-! ## The key factory of the dictionary tests

`CreateKeyWithHash` of `test/cctest/test-swiss-name-dictionary-infra.cc`.
Hashes are 32-bit words kept as natural numbers; `int fake_hash` is kept as its
32-bit pattern. -/

/-- Modelled from the spec: `swiss_table::kH2Bits` is declared outside the
sources; `CreateKeyWithHash` speaks of the "7 bits belonging to H2". -/
def kH2Bits : Nat := 7

/-- Modelled from the spec: `swiss_table::H1` is defined outside the sources;
the hash without its `kH2Bits` low bits. -/
def H1 (hash : Nat) : Nat := hash >>> kH2Bits

/-- Modelled from the spec: `swiss_table::H2` is defined outside the sources;
the `kH2Bits` low bits of the hash. -/
def H2 (hash : Nat) : Nat := hash &&& ((1 <<< kH2Bits) - 1)

/-- The shift `Name::kHashShift`; `CreateKeyWithHash` statically asserts
`Name::kNofHashBitFields == 2`. -/
def kHashShift : Nat := 2

/-- A symbol on the heap: its raw hash field and its description. -/
structure Symbol where
  raw_hash_field : Nat
  description : Option String
  deriving DecidableEq, Repr

/-- Modelled from the spec: `Name::hash` is defined outside the sources; the
hash is the raw hash field above its `kHashShift` flag bits. -/
def Symbol.hash (sym : Symbol) : Nat := (sym.raw_hash_field % 2 ^ 32) >>> kHashShift

/-- The call `set_raw_hash_field(hash_field)`. -/
def Symbol.set_raw_hash_field (sym : Symbol) (hash_field : Nat) : Symbol :=
  { sym with raw_hash_field := hash_field }

/-- The isolate as far as the key factory uses it: the symbols created so far (a
handle is a position in this list) and the raw hash field the factory gives
each new symbol. -/
structure Isolate where
  symbols : List Symbol
  newRawHashField : Nat → Nat

/-- The call `isolate->factory()->NewSymbol()`: a new symbol at the next handle. -/
def Isolate.NewSymbol (isolate : Isolate) : Nat × Isolate :=
  (isolate.symbols.length,
    { isolate with
      symbols := isolate.symbols ++
        [⟨isolate.newRawHashField isolate.symbols.length % 2 ^ 32, none⟩] })

/-- The symbol behind a handle. -/
def Isolate.symbol (isolate : Isolate) (handle : Nat) : Symbol :=
  isolate.symbols.getD handle ⟨0, none⟩

/-- Overwrite the symbol behind a handle. -/
def Isolate.setSymbol (isolate : Isolate) (handle : Nat) (sym : Symbol) : Isolate :=
  { isolate with symbols := isolate.symbols.set handle sym }

/-- The test's `Key`: the string and the optional overrides of H1 (a
`uint32_t`) and H2 (a `uint8_t`). -/
structure Key where
  str : String
  h1_override : Option Nat
  h2_override : Option Nat
  deriving DecidableEq, Repr

/-- The test's `CachedKey`. -/
structure CachedKey where
  key_symbol : Nat
  h1_override : Option Nat
  h2_override : Option Nat
  deriving DecidableEq, Repr

/-- The test's `KeyCache`, a map from strings to cached keys. -/
abbrev KeyCache := List (String × CachedKey)

/-- The lookup `keys.find(str)`. -/
def KeyCache.find (keys : KeyCache) (str : String) : Option CachedKey :=
  keys.lookup str

/-- The assignment `keys[str] = info`. -/
def KeyCache.assign (keys : KeyCache) (str : String) (info : CachedKey) : KeyCache :=
  (str, info) :: keys.filter fun e => e.1 != str

/-- What a call of `CreateKeyWithHash` leaves: how it ended, the returned
handle, the isolate and the cache. -/
structure KeyResult where
  outcome : Outcome
  key_symbol : Nat
  isolate : Isolate
  keys : KeyCache

/-- The hash `CreateKeyWithHash` computes from the symbol's own hash and the
overrides, before the `DCHECK`s: H1 replaced by `h1_override` if given, then
the H2 bits cleared and replaced by `h2_override` if given. -/
def fakeHash (actual_hash : Nat) (h1_override h2_override : Option Nat) : Nat :=
  let fake_hash := actual_hash
  let fake_hash :=
    match h1_override with
    | some override_with => ((override_with <<< kH2Bits) % 2 ^ 32) ||| H2 actual_hash
    | none => fake_hash
  match h2_override with
  | some value => (fake_hash &&& (2 ^ 32 - 1 - ((1 <<< kH2Bits) - 1))) ||| H2 value
  | none => fake_hash

/-- `CreateKeyWithHash(isolate, keys, key)`; `dchecks` says whether DCHECKs are
compiled in. -/
def CreateKeyWithHash (dchecks : Bool) (isolate : Isolate) (keys : KeyCache) (key : Key) :
    KeyResult :=
  match keys.find key.str with
  | none =>
      let (key_symbol, isolate) := isolate.NewSymbol
      let isolate := isolate.setSymbol key_symbol
        { isolate.symbol key_symbol with description := some key.str }
      let keys := keys.assign key.str ⟨key_symbol, key.h1_override, key.h2_override⟩
      if key.h1_override.isSome || key.h2_override.isSome then
        let actual_hash := (isolate.symbol key_symbol).hash
        let fake_hash := fakeHash actual_hash key.h1_override key.h2_override
        if dchecks && key.h2_override.any (fun value => decide (¬ value < 1 <<< kH2Bits)) then
          ⟨.dcheckFailed, key_symbol, isolate, keys⟩
        else
          let hash_field := (fake_hash <<< kHashShift) % 2 ^ 32
          let isolate := isolate.setSymbol key_symbol
            ((isolate.symbol key_symbol).set_raw_hash_field hash_field)
          if dchecks && decide (fake_hash ≠ (isolate.symbol key_symbol).hash) then
            ⟨.dcheckFailed, key_symbol, isolate, keys⟩
          else
            ⟨.returned, key_symbol, isolate, keys⟩
      else
        ⟨.returned, key_symbol, isolate, keys⟩
  | some cached_info =>
      if dchecks && decide (cached_info.h1_override ≠ key.h1_override) then
        ⟨.dcheckFailed, cached_info.key_symbol, isolate, keys⟩
      else if dchecks && decide (cached_info.h2_override ≠ key.h2_override) then
        ⟨.dcheckFailed, cached_info.key_symbol, isolate, keys⟩
      else
        ⟨.returned, cached_info.key_symbol, isolate, keys⟩

/-- An isolate with no symbols whose factory gives the `n`-th symbol the raw
hash field `4 * (1000 + n) + 2`, that is, the hash `1000 + n`. -/
def isolateEmpty : Isolate :=
  { symbols := [], newRawHashField := fun n => 4 * (1000 + n) + 2 }

/-- A state whose registers all hold the word `w`, with memory all 0. -/
def stateOfWord (w : Nat) : State :=
  { regs := fun _ => w, mem := fun _ => 0, flags := ⟨false, false, false, false⟩ }

/-! ## Comparisons and bit fields -/

/-- `TurboAssembler::JumpIfEqual(Register a, int32_t b, Label* dest)`. -/
def JumpIfEqual (a : Register) (b : Int) (dest : Label) : Emitted :=
  (emit (.cmpImm a b)).andThen (emit (.j .equal dest .kFar))

/-- `TurboAssembler::JumpIfLessThan(Register a, int32_t b, Label* dest)`. -/
def JumpIfLessThan (a : Register) (b : Int) (dest : Label) : Emitted :=
  (emit (.cmpImm a b)).andThen (emit (.j .less dest .kFar))

/-- `MacroAssembler::DecodeField<Field>(Register reg)`, with the template
argument given by its constants `Field::kShift` and `Field::kMask` (a
`uint32_t`); `static const int mask` is the shifted mask converted to `int`. -/
def DecodeField (kShift : Nat) (kMask : Nat) (reg : Register) : Emitted :=
  let shift := kShift
  let mask : Int := toS32 (kMask >>> kShift)
  (if shift ≠ 0 then emit (.sar reg shift) else skip).andThen (emit (.and_ reg mask))

/-- Modelled from the spec: the template `BitField` is declared outside the
sources; the mask of a field of `size` bits at `shift`, `((1 << size) - 1)`
shifted left by `shift`. -/
def fieldMask (shift size : Nat) : Nat := (2 ^ size - 1) <<< shift


/-- A sequence of calls of `CreateKeyWithHash`, each on the isolate and the
cache the previous one left, as a test sequence makes them. -/
def CreateKeysWithHash (dchecks : Bool) (isolate : Isolate) (keys : KeyCache) :
    List Key → Isolate × KeyCache
  | [] => (isolate, keys)
  | key :: rest =>
      CreateKeysWithHash dchecks (CreateKeyWithHash dchecks isolate keys key).isolate
        (CreateKeyWithHash dchecks isolate keys key).keys rest


/-! ## Property details of the dictionary tests

`MakeDistinctDetails` of `test-swiss-name-dictionary-infra.cc` (lines 12-42)
fills a vector of 32 property details. -/

/-- Modelled from the spec: the kind of a property, `PropertyKind`. -/
inductive PropertyKind where
  | kData
  | kAccessor
  deriving DecidableEq, Repr

/-- Modelled from the spec: the constness of a property, `PropertyConstness`. -/
inductive PropertyConstness where
  | kMutable
  | kConst
  deriving DecidableEq, Repr

/-- Modelled from the spec: the cell type given to the constructor,
`PropertyCellType`; only `kNoCell` occurs. -/
inductive PropertyCellType where
  | kNoCell
  deriving DecidableEq, Repr

/-- Modelled from the spec: `PropertyAttributes::NONE`. -/
def NONE : Nat := 0

/-- Modelled from the spec: `PropertyAttributes::READ_ONLY`. -/
def READ_ONLY : Nat := 1

/-- Modelled from the spec: `PropertyAttributes::DONT_ENUM`. -/
def DONT_ENUM : Nat := 2

/-- Modelled from the spec: `PropertyAttributes::DONT_DELETE`. -/
def DONT_DELETE : Nat := 4

/-- Modelled from the spec: a `PropertyDetails` value, as far as the test
compares it: kind, constness and attributes (the attribute bits as a number). -/
structure PropertyDetails where
  kind : PropertyKind
  constness : PropertyConstness
  attributes : Nat
  deriving DecidableEq, Repr

/-- Modelled from the spec: the constructor
`PropertyDetails(kind, attributes, cell_type)`; the constness starts mutable. -/
def PropertyDetails.create (kind : PropertyKind) (attributes : Nat)
    (_cell_type : PropertyCellType) : PropertyDetails :=
  { kind := kind, constness := .kMutable, attributes := attributes }

/-- Modelled from the spec: `PropertyDetails::CopyWithConstness`. -/
def PropertyDetails.CopyWithConstness (details : PropertyDetails)
    (constness : PropertyConstness) : PropertyDetails :=
  { details with constness := constness }

/-- Modelled from the spec: `PropertyDetails::Empty()`. -/
def PropertyDetails.Empty : PropertyDetails :=
  PropertyDetails.create .kData NONE .kNoCell

/-- The body of the innermost loop of `MakeDistinctDetails` (lines 22-35) on the
pair of `result` and `i`: the attribute byte is built from the three flags, the
details are constructed, given the constness and stored at `result[i++]`. -/
def MakeDistinctDetails.body (st : List PropertyDetails × Nat) (kind : PropertyKind)
    (constness : PropertyConstness) (writeable enumerable configurable : Bool) :
    List PropertyDetails × Nat :=
  let attrs := NONE % 2 ^ 8
  let attrs := if !writeable then (attrs ||| READ_ONLY) % 2 ^ 8 else attrs
  let attrs := if !enumerable then (attrs ||| DONT_ENUM) % 2 ^ 8 else attrs
  let attrs := if !configurable then (attrs ||| DONT_DELETE) % 2 ^ 8 else attrs
  let attributes := attrs
  let details := PropertyDetails.create kind attributes .kNoCell
  let details := details.CopyWithConstness constness
  (st.1.set st.2 details, st.2 + 1)

/-- The function `MakeDistinctDetails` (lines 12-42): five nested loops, in the
order and over the value lists of the source, over a vector of 32 empty
details. -/
def MakeDistinctDetails : List PropertyDetails :=
  let result := List.replicate 32 PropertyDetails.Empty
  let i := 0
  ([PropertyKind.kAccessor, PropertyKind.kAccessor].foldl (fun st kind =>
    [PropertyConstness.kConst, PropertyConstness.kMutable].foldl (fun st constness =>
      [true, false].foldl (fun st writeable =>
        [true, false].foldl (fun st enumerable =>
          [true, false].foldl (fun st configurable =>
            MakeDistinctDetails.body st kind constness writeable enumerable configurable)
            st) st) st) st) (result, i)).1

/-- The vector `distinct_property_details` (lines 120-121). -/
def distinct_property_details : List PropertyDetails := MakeDistinctDetails

/-! ## C1: tagging then untagging -/

/-- C1: for every signed `v` with `-2^30 ≤ v < 2^30` held in `reg` as a 32-bit
word, running the code of `SmiTag(reg)` followed by the code of `SmiUntag(reg)`
leaves `reg` holding `v` again, falls through, and leaves every other register
as it was. -/
theorem smi_tag_untag_identity (s : State) (reg : Register) (v : Int)
    (hlo : -(2 : Int) ^ 30 ≤ v) (hhi : v < (2 : Int) ^ 30) (hreg : s.regs reg = toU32 v) :
    ((SmiTag reg).andThen (SmiUntag reg)).outcome = .returned ∧
    ((SmiTag reg).andThen (SmiUntag reg)).code = [.add reg reg, .sar reg 1] ∧
    (run s ((SmiTag reg).andThen (SmiUntag reg)).code).1.regs reg = toU32 v ∧
    (run s ((SmiTag reg).andThen (SmiUntag reg)).code).2 = none ∧
    ∀ q, q ≠ reg → (run s ((SmiTag reg).andThen (SmiUntag reg)).code).1.regs q = s.regs q := by
  refine ⟨rfl, rfl, ?_, rfl, ?_⟩
  · simp only [SmiTag, SmiUntag, emit, Emitted.andThen, List.singleton_append, run, exec,
      State.setReg, kSmiTagSize, if_true, hreg]
    simp only [toU32, toS32]
    norm_num
    split <;> omega
  · intro q hq
    simp [SmiTag, SmiUntag, emit, Emitted.andThen, run, exec, State.setReg, kSmiTagSize, hq]

/-- C1 at `v = -5` in `eax`: the hypotheses hold there and the round trip
returns the word of `-5`. -/
theorem smi_tag_untag_identity_witness :
    (run stateMinusFive ((SmiTag .eax).andThen (SmiUntag .eax)).code).1.regs .eax
      = toU32 (-5) :=
  (smi_tag_untag_identity stateMinusFive .eax (-5) (by decide) (by decide) (by decide)).2.2.1

/-! ## C2: `JumpIfSmi` -/

/-- Running `test value, mask ; j zero, l` from any state: the flags come from
the masked operand and the branch is taken exactly when the masked word is 0. -/
theorem run_test_j_zero (s : State) (value : Operand) (imm : Nat) (l : Label) (d : Distance) :
    (run s [.test value imm, .j .zero l d]).2
      = if (s.readOperand value &&& imm) % 2 ^ 32 = 0 then some l else none := by
  by_cases h : (s.readOperand value &&& imm) % 4294967296 = 0 <;>
    simp [run, exec, Condition.holds, h]

/-- C2: both overloads of `JumpIfSmi` emit exactly `test value, kSmiTagMask`
followed by `j zero, smi_label`, and from every state the branch to `smi_label`
is taken if and only if the least-significant bit of the tested word is 0;
otherwise (low bit 1, a heap pointer) execution falls through. -/
theorem jump_if_smi_branches_iff_low_bit_clear (s : State) (value : Register) (mem : Operand)
    (smi_label : Label) (distance : Distance) :
    JumpIfSmi value smi_label distance
      = ⟨[.test (.reg value) 1, .j .zero smi_label distance], .returned⟩ ∧
    JumpIfSmiOperand mem smi_label distance
      = ⟨[.test mem 1, .j .zero smi_label distance], .returned⟩ ∧
    ((run s (JumpIfSmi value smi_label distance).code).2 = some smi_label
      ↔ s.regs value % 2 = 0) ∧
    ((run s (JumpIfSmi value smi_label distance).code).2 = none
      ↔ s.regs value % 2 = 1) ∧
    ((run s (JumpIfSmiOperand mem smi_label distance).code).2 = some smi_label
      ↔ s.readOperand mem % 2 = 0) ∧
    ((run s (JumpIfSmiOperand mem smi_label distance).code).2 = none
      ↔ s.readOperand mem % 2 = 1) := by
  have hmask : ∀ x : Nat, (x &&& 1) % 2 ^ 32 = x % 2 := by
    intro x
    rw [Nat.and_one_is_mod]
    omega
  have hcode1 : (JumpIfSmi value smi_label distance).code
      = [.test (.reg value) 1, .j .zero smi_label distance] := rfl
  have hcode2 : (JumpIfSmiOperand mem smi_label distance).code
      = [.test mem 1, .j .zero smi_label distance] := rfl
  refine ⟨rfl, rfl, ?_, ?_, ?_, ?_⟩
  · rw [hcode1, run_test_j_zero, hmask]
    simp only [State.readOperand]
    by_cases h : s.regs value % 2 = 0 <;> simp [h]
  · rw [hcode1, run_test_j_zero, hmask]
    simp only [State.readOperand]
    by_cases h : s.regs value % 2 = 0 <;> simp [h]
    omega
  · rw [hcode2, run_test_j_zero, hmask]
    by_cases h : s.readOperand mem % 2 = 0 <;> simp [h]
  · rw [hcode2, run_test_j_zero, hmask]
    by_cases h : s.readOperand mem % 2 = 0 <;> simp [h]
    omega

/-! ## Facts shared by the selector proofs -/

/-- Opening a feature scope for a supported feature does nothing. -/
theorem CpuFeatureScope_supported (env : Env) (f : CpuFeature) (h : env.IsSupported f = true) :
    CpuFeatureScope env f = skip := by
  simp [CpuFeatureScope, h]

/-- Sequencing after the empty statement. -/
theorem skip_andThen (b : Emitted) : skip.andThen b = b := by
  cases b
  simp [skip, Emitted.andThen]

/-- A `DCHECK_EQ` of equal values does nothing. -/
theorem DCHECK_EQ_self {α : Type} [DecidableEq α] (env : Env) (a : α) :
    DCHECK_EQ env a a = skip := by
  simp [DCHECK_EQ]

/-- A `DCHECK_EQ` does nothing where DCHECKs are compiled out. -/
theorem DCHECK_EQ_off {α : Type} [DecidableEq α] (env : Env) (a b : α)
    (h : env.dchecks = false) : DCHECK_EQ env a b = skip := by
  simp [DCHECK_EQ, h]

/-- A `DCHECK_EQ` of different values is fatal where DCHECKs are compiled in. -/
theorem DCHECK_EQ_violated {α : Type} [DecidableEq α] (env : Env) (a b : α)
    (h : env.dchecks = true) (hab : a ≠ b) : DCHECK_EQ env a b = ⟨[], .dcheckFailed⟩ := by
  simp [DCHECK_EQ, h, hab]

/-! ## C3: `AVX_OP3_WITH_MOVE` without AVX -/

/-- C3: without AVX, an `AVX_OP3_WITH_MOVE` operation called as
`op(dst, src1, src2)` emits exactly `movaps dst, src1 ; name dst, src2` when
`dst != src1`, and exactly `name dst, src2` when `dst == src1`; it returns
normally in both cases. -/
theorem avx_op3_with_move_legacy_sequence (env : Env) (name : String)
    (dst src1 : XMMRegister) (src2 : Arg) (hno : env.IsSupported .AVX = false) :
    (dst ≠ src1 → AVX_OP3_WITH_MOVE env name dst src1 src2
        = ⟨[.sse "movaps" [.xmm dst, .xmm src1], .sse name [.xmm dst, src2]], .returned⟩) ∧
    (dst = src1 → AVX_OP3_WITH_MOVE env name dst src1 src2
        = ⟨[.sse name [.xmm dst, src2]], .returned⟩) := by
  constructor
  · intro h
    simp [AVX_OP3_WITH_MOVE, hno, h, emit, Emitted.andThen]
  · intro h
    simp [AVX_OP3_WITH_MOVE, hno, h, emit, skip, Emitted.andThen]

/-- C3 at `Cmpeqps(xmm0, xmm1, xmm2)` and `Movlps(xmm3, xmm3, [eax+8])` with SSE
only. -/
theorem avx_op3_with_move_legacy_sequence_witness :
    sse4Debug.IsSupported .AVX = false ∧
    Cmpeqps sse4Debug .xmm0 .xmm1 .xmm2
      = ⟨[.sse "movaps" [.xmm .xmm0, .xmm .xmm1], .sse "cmpeqps" [.xmm .xmm0, .xmm .xmm2]],
          .returned⟩ ∧
    Movlps sse4Debug .xmm3 .xmm3 (.mem .eax 8)
      = ⟨[.sse "movlps" [.xmm .xmm3, .op (.mem .eax 8)]], .returned⟩ :=
  ⟨rfl,
   (avx_op3_with_move_legacy_sequence sse4Debug "cmpeqps" .xmm0 .xmm1 (.xmm .xmm2) rfl).1
     (by decide),
   (avx_op3_with_move_legacy_sequence sse4Debug "movlps" .xmm3 .xmm3 (.op (.mem .eax 8)) rfl).2
     rfl⟩

/-! ## C4: which legacy paths prepend a register move -/

/-- C4, as stated, fails: `Addps(xmm0, xmm1, xmm2)` (an `AVX_PACKED_OP3`
operation) and `Pmaxsd(xmm0, xmm1, xmm2)` (feature-scoped) on the legacy path
with `dst != src1` emit `name dst, src2` alone where DCHECKs are compiled out,
and nothing where they are compiled in: no register move, not one. -/
theorem packed_op3_legacy_prepends_no_move :
    sse4Release.IsSupported .AVX = false ∧ sse4Debug.IsSupported .AVX = false ∧
    XMMRegister.xmm0 ≠ XMMRegister.xmm1 ∧
    Addps sse4Release .xmm0 .xmm1 .xmm2
      = ⟨[.sse "addps" [.xmm .xmm0, .xmm .xmm2]], .returned⟩ ∧
    moveCount (Addps sse4Release .xmm0 .xmm1 .xmm2).code ≠ 1 ∧
    Addps sse4Debug .xmm0 .xmm1 .xmm2 = ⟨[], .dcheckFailed⟩ ∧
    Pmaxsd sse4Release .xmm0 .xmm1 .xmm2
      = ⟨[.sse "pmaxsd" [.xmm .xmm0, .xmm .xmm2]], .returned⟩ ∧
    moveCount (Pmaxsd sse4Release .xmm0 .xmm1 .xmm2).code ≠ 1 := by
  decide

/-- C4, amended: on the legacy path (AVX not supported; for the feature-scoped
macro, its SSE extension supported) only `AVX_OP3_WITH_MOVE` prepends a move:
its code is `name dst, src2` preceded by exactly one `movaps dst, src1` when
`dst != src1` and by nothing when they are equal. `AVX_PACKED_OP3_WITH_TYPE`
and the feature-scoped three-operand macro never emit a move: they guard
`dst == src1` with `DCHECK_EQ` and emit `name dst, src2` alone; with
`dst != src1` that is all they emit where DCHECKs are compiled out, and the
DCHECK is fatal with nothing emitted where they are compiled in. -/
theorem legacy_move_only_in_avx_op3_with_move (env : Env) (name : String) (scope : CpuFeature)
    (dst src1 : XMMRegister) (src2 : Arg)
    (hno : env.IsSupported .AVX = false) (hsse : env.IsSupported scope = true) :
    AVX_OP3_WITH_MOVE env name dst src1 src2
      = ⟨(if dst ≠ src1 then [.sse "movaps" [.xmm dst, .xmm src1]] else [])
          ++ [.sse name [.xmm dst, src2]], .returned⟩ ∧
    AVX_PACKED_OP3_WITH_TYPE env name dst src1 src2
      = (if env.dchecks = true ∧ dst ≠ src1 then ⟨[], .dcheckFailed⟩
         else ⟨[.sse name [.xmm dst, src2]], .returned⟩) ∧
    NonSSE2.AVX_OP3_WITH_TYPE_SCOPE env name scope dst src1 src2
      = (if env.dchecks = true ∧ dst ≠ src1 then ⟨[], .dcheckFailed⟩
         else ⟨[.sse name [.xmm dst, src2]], .returned⟩) := by
  refine ⟨?_, ?_, ?_⟩
  · by_cases h : dst = src1 <;>
      simp [AVX_OP3_WITH_MOVE, hno, h, emit, skip, Emitted.andThen]
  · by_cases h : dst = src1 <;> cases hd : env.dchecks <;>
      simp [AVX_PACKED_OP3_WITH_TYPE, DCHECK_EQ, hno, h, hd, emit, skip, Emitted.andThen]
  · rw [NonSSE2.AVX_OP3_WITH_TYPE_SCOPE, if_neg (by simp [hno]), if_pos hsse,
      CpuFeatureScope_supported env scope hsse, skip_andThen]
    by_cases h : dst = src1 <;> cases hd : env.dchecks <;>
      simp [DCHECK_EQ, h, hd, emit, skip, Emitted.andThen]

/-- C4 amended, at `dst = xmm0`, `src1 = xmm1`, `src2 = xmm2` with SSE4_1 but no
AVX and DCHECKs compiled in: one `movaps` for `Cmpeqps`, a failed DCHECK for
`Addps` and `Pmaxsd`. -/
theorem legacy_move_only_in_avx_op3_with_move_witness :
    sse4Debug.IsSupported .AVX = false ∧ sse4Debug.IsSupported .SSE4_1 = true ∧
    AVX_OP3_WITH_MOVE sse4Debug "cmpeqps" .xmm0 .xmm1 (.xmm .xmm2)
      = ⟨(if XMMRegister.xmm0 ≠ XMMRegister.xmm1
            then [.sse "movaps" [.xmm .xmm0, .xmm .xmm1]] else [])
          ++ [.sse "cmpeqps" [.xmm .xmm0, .xmm .xmm2]], .returned⟩ :=
  ⟨rfl, rfl,
   (legacy_move_only_in_avx_op3_with_move sse4Debug "cmpeqps" .SSE4_1 .xmm0 .xmm1
      (.xmm .xmm2) rfl rfl).1⟩

/-! ## C5: the AVX path -/

/-- C5: with AVX supported, whatever the other feature flags and build
settings, each of the five macros generating a selector over
`(dst, src1, src2)` emits exactly the one instruction `v-name dst, src1, src2`,
operands in the order given, and returns; no move is emitted, whether or not
`dst` equals `src1`. -/
theorem avx_path_emits_single_three_operand_form (env : Env) (name : String)
    (scope : CpuFeature) (dst src1 : XMMRegister) (adst asrc1 src2 : Arg)
    (havx : env.IsSupported .AVX = true) :
    AVX_OP3_WITH_TYPE env name adst asrc1 src2
      = ⟨[.avx name [adst, asrc1, src2]], .returned⟩ ∧
    AVX_OP3_WITH_TYPE_SCOPE env name scope adst asrc1 src2
      = ⟨[.avx name [adst, asrc1, src2]], .returned⟩ ∧
    AVX_PACKED_OP3_WITH_TYPE env name dst src1 src2
      = ⟨[.avx name [.xmm dst, .xmm src1, src2]], .returned⟩ ∧
    AVX_OP3_WITH_MOVE env name dst src1 src2
      = ⟨[.avx name [.xmm dst, .xmm src1, src2]], .returned⟩ ∧
    NonSSE2.AVX_OP3_WITH_TYPE_SCOPE env name scope dst src1 src2
      = ⟨[.avx name [.xmm dst, .xmm src1, src2]], .returned⟩ := by
  have hs := CpuFeatureScope_supported env .AVX havx
  refine ⟨?_, ?_, ?_, ?_, ?_⟩
  · rw [AVX_OP3_WITH_TYPE, if_pos havx, hs, skip_andThen]; rfl
  · rw [AVX_OP3_WITH_TYPE_SCOPE, if_pos havx, hs, skip_andThen]; rfl
  · rw [AVX_PACKED_OP3_WITH_TYPE, if_pos havx, hs, skip_andThen]; rfl
  · rw [AVX_OP3_WITH_MOVE, if_pos havx, hs, skip_andThen]; rfl
  · rw [NonSSE2.AVX_OP3_WITH_TYPE_SCOPE, if_pos havx, hs, skip_andThen]; rfl

/-- C5 at `Cmpeqps(xmm0, xmm1, xmm2)` with AVX supported and no SSE3, SSSE3 or
SSE4_1 reported: the one instruction `vcmpeqps xmm0, xmm1, xmm2`. -/
theorem avx_path_emits_single_three_operand_form_witness :
    avxOnlyDebug.IsSupported .AVX = true ∧
    Cmpeqps avxOnlyDebug .xmm0 .xmm1 .xmm2
      = ⟨[.avx "cmpeqps" [.xmm .xmm0, .xmm .xmm1, .xmm .xmm2]], .returned⟩ :=
  ⟨rfl,
   (avx_path_emits_single_three_operand_form avxOnlyDebug "cmpeqps" .SSE4_1 .xmm0 .xmm1
      (.xmm .xmm0) (.xmm .xmm1) (.xmm .xmm2) rfl).2.2.2.1⟩

/-! ## C6: `UNREACHABLE` in the `Non-SSE2` macros -/

/-- C6, as stated, fails: with SSE4_1 supported (so not the configuration of
`UNREACHABLE`) and DCHECKs compiled in, `Pmaxsd(xmm0, xmm1, xmm2)` without AVX
fails `DCHECK_EQ(dst, src1)`: nothing is emitted and the call does not return
normally. -/
theorem pmaxsd_supported_yet_fatal :
    sse4Debug.IsSupported .AVX = false ∧ sse4Debug.IsSupported .SSE4_1 = true ∧
    Pmaxsd sse4Debug .xmm0 .xmm1 .xmm2 = ⟨[], .dcheckFailed⟩ ∧
    (Pmaxsd sse4Debug .xmm0 .xmm1 .xmm2).code.length ≠ 1 ∧
    (Pmaxsd sse4Debug .xmm0 .xmm1 .xmm2).outcome ≠ .returned := by
  decide

/-- C6, amended: for the `Non-SSE2` two-operand macro and the feature-scoped
three-operand macro, the call reaches `UNREACHABLE` if and only if neither AVX
nor the required SSE extension is supported, and then nothing has been emitted.
In every other configuration the two-operand macro emits exactly one
instruction and returns; so does the three-operand macro on the AVX path, and
on the legacy path when `dst == src1` or DCHECKs are compiled out; on the
legacy path with `dst != src1` and DCHECKs compiled in the `DCHECK_EQ` is fatal
with nothing emitted. -/
theorem nonsse2_unreachable_iff_no_extension (env : Env) (name : String) (scope : CpuFeature)
    (dst src1 : XMMRegister) (src src2 : Arg) :
    ((NonSSE2.AVX_OP2_WITH_TYPE_SCOPE env name scope dst src).outcome = .unreachable
      ↔ (env.IsSupported .AVX = false ∧ env.IsSupported scope = false)) ∧
    ((NonSSE2.AVX_OP2_WITH_TYPE_SCOPE env name scope dst src).outcome = .unreachable
      → (NonSSE2.AVX_OP2_WITH_TYPE_SCOPE env name scope dst src).code = []) ∧
    ((NonSSE2.AVX_OP2_WITH_TYPE_SCOPE env name scope dst src).outcome ≠ .unreachable
      → (NonSSE2.AVX_OP2_WITH_TYPE_SCOPE env name scope dst src).code.length = 1 ∧
        (NonSSE2.AVX_OP2_WITH_TYPE_SCOPE env name scope dst src).outcome = .returned) ∧
    ((NonSSE2.AVX_OP3_WITH_TYPE_SCOPE env name scope dst src1 src2).outcome = .unreachable
      ↔ (env.IsSupported .AVX = false ∧ env.IsSupported scope = false)) ∧
    ((NonSSE2.AVX_OP3_WITH_TYPE_SCOPE env name scope dst src1 src2).outcome = .unreachable
      → (NonSSE2.AVX_OP3_WITH_TYPE_SCOPE env name scope dst src1 src2).code = []) ∧
    ((NonSSE2.AVX_OP3_WITH_TYPE_SCOPE env name scope dst src1 src2).outcome ≠ .unreachable
      → (env.IsSupported .AVX = true ∨ dst = src1 ∨ env.dchecks = false)
      → (NonSSE2.AVX_OP3_WITH_TYPE_SCOPE env name scope dst src1 src2).code.length = 1 ∧
        (NonSSE2.AVX_OP3_WITH_TYPE_SCOPE env name scope dst src1 src2).outcome = .returned) ∧
    (env.IsSupported .AVX = false → env.IsSupported scope = true → dst ≠ src1
      → env.dchecks = true
      → NonSSE2.AVX_OP3_WITH_TYPE_SCOPE env name scope dst src1 src2
          = ⟨[], .dcheckFailed⟩) := by
  cases havx : env.IsSupported .AVX <;> cases hsc : env.IsSupported scope <;>
    cases hd : env.dchecks <;> by_cases h : dst = src1 <;>
    simp [NonSSE2.AVX_OP2_WITH_TYPE_SCOPE, NonSSE2.AVX_OP3_WITH_TYPE_SCOPE, CpuFeatureScope,
      DCHECK_EQ, UNREACHABLE, emit, skip, Emitted.andThen, havx, hsc, hd, h]

/-- C6 amended, at `Ptest(xmm0, xmm1)` and `Pmaxsd(xmm0, xmm1, xmm2)` with no
AVX and no SSE4_1 (both unreachable, nothing emitted), and at
`Pmaxsd(xmm0, xmm0, xmm2)` with SSE4_1 (one instruction, returns). -/
theorem nonsse2_unreachable_iff_no_extension_witness :
    Ptest baselineDebug .xmm0 .xmm1 = ⟨[], .unreachable⟩ ∧
    (Pmaxsd baselineDebug .xmm0 .xmm1 .xmm2).code = [] ∧
    ((Pmaxsd sse4Debug .xmm0 .xmm0 .xmm2).code.length = 1 ∧
      (Pmaxsd sse4Debug .xmm0 .xmm0 .xmm2).outcome = .returned) ∧
    Pmaxsd sse4Debug .xmm0 .xmm1 .xmm2 = ⟨[], .dcheckFailed⟩ :=
  ⟨by decide,
   (nonsse2_unreachable_iff_no_extension baselineDebug "pmaxsd" .SSE4_1 .xmm0 .xmm1
      (.xmm .xmm1) (.xmm .xmm2)).2.2.2.2.1 (by decide),
   (nonsse2_unreachable_iff_no_extension sse4Debug "pmaxsd" .SSE4_1 .xmm0 .xmm0
      (.xmm .xmm1) (.xmm .xmm2)).2.2.2.2.2.1 (by decide) (Or.inr (Or.inl rfl)),
   (nonsse2_unreachable_iff_no_extension sse4Debug "pmaxsd" .SSE4_1 .xmm0 .xmm1
      (.xmm .xmm1) (.xmm .xmm2)).2.2.2.2.2.2 rfl rfl (by decide) rfl⟩

/-! ## C7: selectors without an `UNREACHABLE` -/

/-- C7, as stated, fails: with neither AVX nor SSE4_1 supported and the scope
check compiled out, `Pextrb(eax, xmm0, 0)` returns normally having emitted the
legacy `pextrb`. -/
theorem pextrb_unsupported_returns_normally :
    baselineRelease.IsSupported .AVX = false ∧ baselineRelease.IsSupported .SSE4_1 = false ∧
    Pextrb baselineRelease .eax .xmm0 0
      = ⟨[.sse "pextrb" [.reg .eax, .xmm .xmm0, .imm8 0]], .returned⟩ ∧
    (Pextrb baselineRelease .eax .xmm0 0).outcome ≠ .unreachable := by
  decide

/-- The two-operand scoped selectors of line 444 (`Psignb`, `Psignw`, `Psignd`,
`Pcmpeqq`) with neither AVX nor their extension: the `if` / `else if` falls
through, the call returns normally and nothing is emitted, in every build. -/
theorem two_operand_scope_falls_through (env : Env) (name : String) (scope : CpuFeature)
    (dst : XMMRegister) (src : Arg)
    (hno : env.IsSupported .AVX = false) (hsse : env.IsSupported scope = false) :
    TwoOperand.AVX_OP2_WITH_TYPE_SCOPE env name scope dst src = ⟨[], .returned⟩ := by
  simp [TwoOperand.AVX_OP2_WITH_TYPE_SCOPE, hno, hsse, skip]

/-- C7, amended, for `Pextrb`, `Pextrw`, `Extractps`, `Roundps`, `Roundpd` (the
macro of line 322): the selector never reaches `UNREACHABLE`. Without AVX it
does not query its SSE extension: it opens the feature scope and emits the
legacy instruction `name dst, src1, src2`. With the extension unsupported, the
call is fatal inside the scope's own check, with nothing emitted, where that
check is compiled in, and returns normally having emitted exactly the legacy
instruction where it is not. -/
theorem sse_scope_selector_never_unreachable (env : Env) (name : String) (scope : CpuFeature)
    (dst src1 src2 : Arg) (hno : env.IsSupported .AVX = false)
    (hsse : env.IsSupported scope = false) :
    (AVX_OP3_WITH_TYPE_SCOPE env name scope dst src1 src2).outcome ≠ .unreachable ∧
    (env.scopeChecks = true
      → AVX_OP3_WITH_TYPE_SCOPE env name scope dst src1 src2 = ⟨[], .dcheckFailed⟩) ∧
    (env.scopeChecks = false
      → AVX_OP3_WITH_TYPE_SCOPE env name scope dst src1 src2
          = ⟨[.sse name [dst, src1, src2]], .returned⟩) := by
  cases hc : env.scopeChecks <;>
    simp [AVX_OP3_WITH_TYPE_SCOPE, CpuFeatureScope, emit, skip, Emitted.andThen, hno, hsse, hc]

/-- C7 amended, at `Pextrb(eax, xmm0, 0)` with neither AVX nor SSE4_1: fatal in
the scope check where it is compiled in, the legacy instruction where not. -/
theorem sse_scope_selector_never_unreachable_witness :
    baselineDebug.IsSupported .AVX = false ∧ baselineDebug.IsSupported .SSE4_1 = false ∧
    Pextrb baselineDebug .eax .xmm0 0 = ⟨[], .dcheckFailed⟩ ∧
    Pextrb baselineRelease .eax .xmm0 0
      = ⟨[.sse "pextrb" [.reg .eax, .xmm .xmm0, .imm8 0]], .returned⟩ :=
  ⟨rfl, rfl,
   (sse_scope_selector_never_unreachable baselineDebug "pextrb" .SSE4_1 (.reg .eax)
      (.xmm .xmm0) (.imm8 0) rfl rfl).2.1 rfl,
   (sse_scope_selector_never_unreachable baselineRelease "pextrb" .SSE4_1 (.reg .eax)
      (.xmm .xmm0) (.imm8 0) rfl rfl).2.2 rfl⟩

/-! ## C8: the legacy sequence against the AVX instruction -/

/-- The code `AVX_OP3_WITH_MOVE` emits, by configuration. -/
theorem AVX_OP3_WITH_MOVE_code (env : Env) (name : String) (dst src1 : XMMRegister)
    (src2 : Arg) :
    (AVX_OP3_WITH_MOVE env name dst src1 src2).code
      = if env.IsSupported .AVX = true then [.avx name [.xmm dst, .xmm src1, src2]]
        else if dst = src1 then [.sse name [.xmm dst, src2]]
        else [.sse "movaps" [.xmm dst, .xmm src1], .sse name [.xmm dst, src2]] := by
  cases havx : env.IsSupported .AVX <;> cases hc : env.scopeChecks <;>
    by_cases h : dst = src1 <;>
    simp [AVX_OP3_WITH_MOVE, CpuFeatureScope, emit, skip, Emitted.andThen, havx, hc, h]

/-- C8, as stated, fails at `Cmpeqps(xmm2, xmm1, xmm2)` (`dst == src2`,
`dst != src1`): from registers `xmm1 = 1`, `xmm2 = 2` the AVX instruction
compares `xmm1` with the old `xmm2` and leaves `0` in `xmm2`, while the legacy
sequence first overwrites `xmm2` with `xmm1`, compares it with itself and
leaves `1`. -/
theorem cmpeqps_legacy_differs_when_dst_is_src2 :
    sse4Release.IsSupported .AVX = false ∧ avxDebug.IsSupported .AVX = true ∧
    (Cmpeqps sse4Release .xmm2 .xmm1 .xmm2).code
      = [.sse "movaps" [.xmm .xmm2, .xmm .xmm1], .sse "cmpeqps" [.xmm .xmm2, .xmm .xmm2]] ∧
    (Cmpeqps avxDebug .xmm2 .xmm1 .xmm2).code
      = [.avx "cmpeqps" [.xmm .xmm2, .xmm .xmm1, .xmm .xmm2]] ∧
    (runVec cmpeq vecStateIndex (Cmpeqps sse4Release .xmm2 .xmm1 .xmm2).code).xmm .xmm2 = 1 ∧
    (runVec cmpeq vecStateIndex (Cmpeqps avxDebug .xmm2 .xmm1 .xmm2).code).xmm .xmm2 = 0 := by
  decide

/-- C8, amended: for an `AVX_OP3_WITH_MOVE` operation (its mnemonic is not
`movaps`) and every binary `f`, if `dst == src1` or `src2` does not name the
register `dst`, the register state after the sequence emitted without AVX
equals the state after the instruction emitted with AVX, from every initial
state. -/
theorem with_move_legacy_equals_avx_unless_dst_is_src2 {α : Type} (f : α → α → α)
    (s : VecState α) (legacy avx : Env) (name : String) (dst src1 : XMMRegister) (src2 : Arg)
    (hno : legacy.IsSupported .AVX = false) (havx : avx.IsSupported .AVX = true)
    (hname : name ≠ "movaps") (halias : dst = src1 ∨ src2.xmmRegister ≠ some dst) :
    runVec f s (AVX_OP3_WITH_MOVE legacy name dst src1 src2).code
      = runVec f s (AVX_OP3_WITH_MOVE avx name dst src1 src2).code := by
  rw [AVX_OP3_WITH_MOVE_code, AVX_OP3_WITH_MOVE_code, if_neg (by simp [hno]), if_pos havx]
  by_cases h : dst = src1
  · subst h
    simp [runVec, execVec, hname, VecState.read, VecState.write, Arg.xmmRegister]
  · have hsrc2 : src2.xmmRegister ≠ some dst := halias.resolve_left h
    rw [if_neg h]
    simp only [runVec, List.foldl, execVec, hname, if_true, if_false, VecState.write,
      VecState.read]
    congr 1
    funext q
    by_cases hq : q = dst
    · subst hq
      cases hx : src2.xmmRegister with
      | none => simp
      | some r =>
          have hr : r ≠ q := fun e => hsrc2 (by rw [hx, e])
          simp [hr]
    · simp [hq]

/-- C8 amended, at `Cmpeqps(xmm0, xmm1, xmm2)` from `xmm_i = i`: both encodings
leave the same state, `xmm0 = 0`. -/
theorem with_move_legacy_equals_avx_unless_dst_is_src2_witness :
    sse4Release.IsSupported .AVX = false ∧ avxDebug.IsSupported .AVX = true ∧
    "cmpeqps" ≠ "movaps" ∧
    (XMMRegister.xmm0 = XMMRegister.xmm1
      ∨ (Arg.xmm .xmm2).xmmRegister ≠ some XMMRegister.xmm0) ∧
    runVec cmpeq vecStateIndex (AVX_OP3_WITH_MOVE sse4Release "cmpeqps" .xmm0 .xmm1
        (.xmm .xmm2)).code
      = runVec cmpeq vecStateIndex (AVX_OP3_WITH_MOVE avxDebug "cmpeqps" .xmm0 .xmm1
        (.xmm .xmm2)).code :=
  ⟨rfl, rfl, by decide, Or.inr (by decide),
   with_move_legacy_equals_avx_unless_dst_is_src2 cmpeq vecStateIndex sse4Release avxDebug
     "cmpeqps" .xmm0 .xmm1 (.xmm .xmm2) rfl rfl (by decide) (Or.inr (by decide))⟩

/-! ## C9: the `dst == src1` assertion of `AVX_PACKED_OP3_WITH_TYPE` -/

/-- C9: for an `AVX_PACKED_OP3_WITH_TYPE` operation called without AVX: when
`dst == src1` the `DCHECK_EQ(dst, src1)` passes and exactly `name dst, src2` is
emitted; when `dst != src1` the assertion is violated (fatal where DCHECKs are
compiled in, with nothing emitted), and in no build is anything emitted other
than `name dst, src2` with the operands as given: no move, no swap. -/
theorem packed_op3_asserts_dst_is_src1 (env : Env) (name : String) (dst src1 : XMMRegister)
    (src2 : Arg) (hno : env.IsSupported .AVX = false) :
    (dst = src1 →
      DCHECK_EQ env dst src1 = skip ∧
      AVX_PACKED_OP3_WITH_TYPE env name dst src1 src2
        = ⟨[.sse name [.xmm dst, src2]], .returned⟩) ∧
    (dst ≠ src1 →
      (env.dchecks = true →
        DCHECK_EQ env dst src1 = ⟨[], .dcheckFailed⟩ ∧
        AVX_PACKED_OP3_WITH_TYPE env name dst src1 src2 = ⟨[], .dcheckFailed⟩) ∧
      (env.dchecks = false →
        AVX_PACKED_OP3_WITH_TYPE env name dst src1 src2
          = ⟨[.sse name [.xmm dst, src2]], .returned⟩)) ∧
    (∀ i ∈ (AVX_PACKED_OP3_WITH_TYPE env name dst src1 src2).code,
      i = .sse name [.xmm dst, src2]) ∧
    (AVX_PACKED_OP3_WITH_TYPE env name dst src1 src2).code.length ≤ 1 := by
  cases hd : env.dchecks <;> by_cases h : dst = src1 <;>
    simp [AVX_PACKED_OP3_WITH_TYPE, DCHECK_EQ, emit, skip, Emitted.andThen, hno, hd, h]

/-- C9 at `Addps(xmm0, xmm0, xmm1)` and `Psllw(xmm0, xmm1, 3)` without AVX,
DCHECKs compiled in: one `addps xmm0, xmm1`; a violated assertion for `Psllw`. -/
theorem packed_op3_asserts_dst_is_src1_witness :
    sse4Debug.IsSupported .AVX = false ∧
    Addps sse4Debug .xmm0 .xmm0 .xmm1
      = ⟨[.sse "addps" [.xmm .xmm0, .xmm .xmm1]], .returned⟩ ∧
    Psllw sse4Debug .xmm0 .xmm1 3 = ⟨[], .dcheckFailed⟩ :=
  ⟨rfl,
   ((packed_op3_asserts_dst_is_src1 sse4Debug "addps" .xmm0 .xmm0 (.xmm .xmm1) rfl).1 rfl).2,
   (((packed_op3_asserts_dst_is_src1 sse4Debug "psllw" .xmm0 .xmm1 (.imm8 3) rfl).2.1
      (by decide)).1 rfl).2⟩

/-! ## C10: the pure two-operand selectors -/

/-- C10: in every feature configuration and build, an `AVX_OP2_WITH_TYPE`
selector emits exactly one instruction, `v-name dst, src` with AVX and
`name dst, src` without, and the two-operand `AVX_OP3_WITH_TYPE` / `AVX_OP3_XO`
selector emits exactly one instruction, `v-name dst, dst, src` with AVX and
`name dst, src` without; both return normally and no other instruction (so no
register move) is emitted. -/
theorem two_operand_selectors_emit_one_instruction (env : Env) (name : String)
    (adst src : Arg) (dst : XMMRegister) :
    AVX_OP2_WITH_TYPE env name adst src
      = ⟨[if env.IsSupported .AVX = true then .avx name [adst, src]
          else .sse name [adst, src]], .returned⟩ ∧
    TwoOperand.AVX_OP3_WITH_TYPE env name dst src
      = ⟨[if env.IsSupported .AVX = true then .avx name [.xmm dst, .xmm dst, src]
          else .sse name [.xmm dst, src]], .returned⟩ ∧
    (AVX_OP2_WITH_TYPE env name adst src).code.length = 1 ∧
    (TwoOperand.AVX_OP3_WITH_TYPE env name dst src).code.length = 1 := by
  cases havx : env.IsSupported .AVX <;> cases hc : env.scopeChecks <;>
    simp [AVX_OP2_WITH_TYPE, TwoOperand.AVX_OP3_WITH_TYPE, CpuFeatureScope, emit, skip,
      Emitted.andThen, havx, hc]

/-! ## Concrete evaluations of the selectors -/

/-- The remaining `AVX_OP3_WITH_MOVE` operations on the legacy path:
`Movhps(xmm1, xmm2, [ebx])` and `Pmaddwd(xmm4, xmm4, [esi + 4*edi + 16])`. -/
theorem movhps_pmaddwd_legacy_examples :
    Movhps sse4Release .xmm1 .xmm2 (.mem .ebx 0)
      = ⟨[.sse "movaps" [.xmm .xmm1, .xmm .xmm2],
          .sse "movhps" [.xmm .xmm1, .op (.mem .ebx 0)]], .returned⟩ ∧
    Pmaddwd sse4Release .xmm4 .xmm4 (.memIndexed .esi .edi .times_4 16)
      = ⟨[.sse "pmaddwd" [.xmm .xmm4, .op (.memIndexed .esi .edi .times_4 16)]],
          .returned⟩ := by
  decide

/-- The selector `Haddps(xmm0, xmm0, [eax])` needs SSE3: one `haddps` with it,
`UNREACHABLE` without it and without AVX. -/
theorem haddps_examples :
    Haddps sse4Debug .xmm0 .xmm0 (.mem .eax 0)
      = ⟨[.sse "haddps" [.xmm .xmm0, .op (.mem .eax 0)]], .returned⟩ ∧
    Haddps baselineDebug .xmm0 .xmm0 (.mem .eax 0) = ⟨[], .unreachable⟩ ∧
    Haddps avxOnlyDebug .xmm0 .xmm1 (.mem .eax 0)
      = ⟨[.avx "haddps" [.xmm .xmm0, .xmm .xmm1, .op (.mem .eax 0)]], .returned⟩ := by
  decide

/-- With neither AVX nor SSSE3, `Psignb(xmm0, xmm1)` returns normally and emits
nothing, with checks compiled in or out. -/
theorem psignb_unsupported_emits_nothing :
    Psignb baselineDebug .xmm0 .xmm1 = ⟨[], .returned⟩ ∧
    Psignb baselineRelease .xmm0 .xmm1 = ⟨[], .returned⟩ := by
  decide

/-- The pure two-operand selectors `Movaps(xmm0, xmm1)` and `Pxor(xmm0, xmm1)`
with and without AVX. -/
theorem movaps_pxor_examples :
    Movaps sse4Debug .xmm0 .xmm1 = ⟨[.sse "movaps" [.xmm .xmm0, .xmm .xmm1]], .returned⟩ ∧
    Movaps avxDebug .xmm0 .xmm1 = ⟨[.avx "movaps" [.xmm .xmm0, .xmm .xmm1]], .returned⟩ ∧
    Pxor sse4Debug .xmm0 .xmm1 = ⟨[.sse "pxor" [.xmm .xmm0, .xmm .xmm1]], .returned⟩ ∧
    Pxor avxDebug .xmm0 .xmm1
      = ⟨[.avx "pxor" [.xmm .xmm0, .xmm .xmm0, .xmm .xmm1]], .returned⟩ := by
  decide

/-! ## C12: the low bit after `SmiTag` -/

/-- Running `test value, mask ; j not_zero, l` from any state: the branch is
taken exactly when the masked word is not 0. -/
theorem run_test_j_not_zero (s : State) (value : Operand) (imm : Nat) (l : Label)
    (d : Distance) :
    (run s [.test value imm, .j .not_zero l d]).2
      = if (s.readOperand value &&& imm) % 2 ^ 32 = 0 then none else some l := by
  by_cases h : (s.readOperand value &&& imm) % 4294967296 = 0 <;>
    simp [run, exec, Condition.holds, h]

/-- Masking a word with the tag mask `1` leaves its low bit. -/
theorem and_one_mod_word (x : Nat) : (x &&& 1) % 2 ^ 32 = x % 2 := by
  rw [Nat.and_one_is_mod]
  omega

/-- The register written by `add reg, reg`, and the branch it does not take. -/
theorem run_add_self (s : State) (reg : Register) (rest : List Instr) :
    run s (.add reg reg :: rest) = run (exec s (.add reg reg)).1 rest ∧
    (exec s (.add reg reg)).1.regs reg = (s.regs reg + s.regs reg) % 2 ^ 32 := by
  simp [run, exec, State.setReg]

/-- C12: for every word `x` in `reg` (in the small-integer range or not), after
the code of `SmiTag(reg)` the low bit of `reg` is 0; the code of `JumpIfSmi(reg)`
run right after it takes its branch, and the code of `JumpIfNotSmi(reg)` run
right after it falls through. -/
theorem smi_tag_result_has_low_bit_clear (s : State) (reg : Register) (l : Label)
    (d : Distance) :
    (run s (SmiTag reg).code).1.regs reg % 2 = 0 ∧
    (run s ((SmiTag reg).andThen (JumpIfSmi reg l d)).code).2 = some l ∧
    (run s ((SmiTag reg).andThen (JumpIfNotSmi reg l d)).code).2 = none := by
  have heven : ((s.regs reg + s.regs reg) % 2 ^ 32) % 2 = 0 := by omega
  have h1 : ((SmiTag reg).andThen (JumpIfSmi reg l d)).code
      = .add reg reg :: [.test (.reg reg) 1, .j .zero l d] := rfl
  have h2 : ((SmiTag reg).andThen (JumpIfNotSmi reg l d)).code
      = .add reg reg :: [.test (.reg reg) 1, .j .not_zero l d] := rfl
  have h0 : (SmiTag reg).code = .add reg reg :: [] := rfl
  have hb : (exec s (.add reg reg)).1.regs reg % 2 = 0 := by
    rw [(run_add_self s reg []).2]
    exact heven
  refine ⟨?_, ?_, ?_⟩
  · rw [h0, (run_add_self s reg []).1]
    simp only [run]
    rw [(run_add_self s reg []).2]
    exact heven
  · rw [h1, (run_add_self s reg _).1, run_test_j_zero, and_one_mod_word]
    simp only [State.readOperand]
    rw [if_pos hb]
  · rw [h2, (run_add_self s reg _).1, run_test_j_not_zero, and_one_mod_word]
    simp only [State.readOperand]
    rw [if_pos hb]

/-! ## C19: `JumpIfNotSmi` against `JumpIfSmi` -/

/-- C19: both overloads of `JumpIfNotSmi` emit exactly `test value, kSmiTagMask`
followed by `j not_zero, label`; from every state the branch is taken if and
only if the low bit of the tested word is 1; and exactly one of `JumpIfSmi` and
`JumpIfNotSmi` on the same value takes its branch. -/
theorem jump_if_not_smi_is_complement (s : State) (value : Register) (mem : Operand)
    (l l2 : Label) (d d2 : Distance) :
    JumpIfNotSmi value l d = ⟨[.test (.reg value) 1, .j .not_zero l d], .returned⟩ ∧
    JumpIfNotSmiOperand mem l d = ⟨[.test mem 1, .j .not_zero l d], .returned⟩ ∧
    ((run s (JumpIfNotSmi value l d).code).2 = some l ↔ s.regs value % 2 = 1) ∧
    ((run s (JumpIfNotSmiOperand mem l d).code).2 = some l ↔ s.readOperand mem % 2 = 1) ∧
    ((run s (JumpIfSmi value l2 d2).code).2 = none
      ↔ (run s (JumpIfNotSmi value l d).code).2 = some l) ∧
    ((run s (JumpIfSmi value l2 d2).code).2 = some l2
      ↔ (run s (JumpIfNotSmi value l d).code).2 = none) ∧
    ((run s (JumpIfSmiOperand mem l2 d2).code).2 = none
      ↔ (run s (JumpIfNotSmiOperand mem l d).code).2 = some l) ∧
    ((run s (JumpIfSmiOperand mem l2 d2).code).2 = some l2
      ↔ (run s (JumpIfNotSmiOperand mem l d).code).2 = none) := by
  have c1 : (JumpIfNotSmi value l d).code = [.test (.reg value) 1, .j .not_zero l d] := rfl
  have c2 : (JumpIfNotSmiOperand mem l d).code = [.test mem 1, .j .not_zero l d] := rfl
  have c3 : (JumpIfSmi value l2 d2).code = [.test (.reg value) 1, .j .zero l2 d2] := rfl
  have c4 : (JumpIfSmiOperand mem l2 d2).code = [.test mem 1, .j .zero l2 d2] := rfl
  rw [c1, c2, c3, c4]
  simp only [run_test_j_zero, run_test_j_not_zero, and_one_mod_word, State.readOperand]
  refine ⟨rfl, rfl, ?_, ?_, ?_, ?_, ?_, ?_⟩
  · by_cases h : s.regs value % 2 = 0 <;> simp [h]
    omega
  · by_cases h : s.readOperand mem % 2 = 0 <;> simp [h]
  · by_cases h : s.regs value % 2 = 0 <;> simp [h]
  · by_cases h : s.regs value % 2 = 0 <;> simp [h]
  · by_cases h : s.readOperand mem % 2 = 0 <;> simp [h]
  · by_cases h : s.readOperand mem % 2 = 0 <;> simp [h]

/-! ## C11: how many instructions a selector emits, and where they write -/

/-- An instruction whose destination operand is `dst` leaves every vector
register that `dst` does not name, and every other source, as it was. -/
theorem execVec_frame {α : Type} (f : α → α → α) (s : VecState α) (i : Instr) (dst : Arg)
    (q : XMMRegister) (hd : i.destination = some dst) (hq : dst.xmmRegister ≠ some q) :
    (execVec f s i).xmm q = s.xmm q ∧ (execVec f s i).other = s.other := by
  unfold execVec
  split
  · rename_i d a b
    have hdq : q ≠ d := by
      rintro rfl
      simp [Instr.destination] at hd
      subst hd
      exact hq rfl
    simp [VecState.write, hdq]
  · rename_i n d b
    have hdq : q ≠ d := by
      rintro rfl
      simp [Instr.destination] at hd
      subst hd
      exact hq rfl
    split <;> simp [VecState.write, hdq]
  · exact ⟨rfl, rfl⟩

/-- Code all of whose instructions have destination `dst` leaves every vector
register that `dst` does not name, and every other source, as it was. -/
theorem runVec_frame {α : Type} (f : α → α → α) (code : List Instr) (dst : Arg)
    (q : XMMRegister) (hq : dst.xmmRegister ≠ some q) :
    ∀ s : VecState α, (∀ i ∈ code, i.destination = some dst) →
      (runVec f s code).xmm q = s.xmm q ∧ (runVec f s code).other = s.other := by
  induction code with
  | nil => intro s _; exact ⟨rfl, rfl⟩
  | cons i rest ih =>
      intro s h
      have hi := execVec_frame f s i dst q (h i (List.mem_cons_self _ _)) hq
      have hr := ih (execVec f s i) (fun j hj => h j (List.mem_cons_of_mem _ hj))
      simp only [runVec, List.foldl] at hr ⊢
      exact ⟨hr.1.trans hi.1, hr.2.trans hi.2⟩

/-- The instructions a selector can emit, by macro: every one of them has the
caller's `dst` as destination operand. -/
theorem Selector.emitted_destination (env : Env) (sel : Selector) :
    ∀ i ∈ (sel.emitted env).code, i.destination = some sel.dst := by
  cases sel <;>
    simp only [Selector.emitted, Selector.dst, AVX_OP3_WITH_TYPE, AVX_OP3_WITH_TYPE_SCOPE,
      AVX_OP2_WITH_TYPE, TwoOperand.AVX_OP3_WITH_TYPE, TwoOperand.AVX_OP2_WITH_TYPE_SCOPE,
      AVX_PACKED_OP3_WITH_TYPE, AVX_OP3_WITH_MOVE, NonSSE2.AVX_OP2_WITH_TYPE_SCOPE,
      NonSSE2.AVX_OP3_WITH_TYPE_SCOPE, CpuFeatureScope, DCHECK_EQ, UNREACHABLE, emit, skip,
      Emitted.andThen] <;>
    intro i hi <;>
    (repeat' split at hi) <;>
    first
      | (simp_all [Instr.destination]; done)
      | (simp only [List.mem_cons, List.mem_singleton, List.not_mem_nil, or_false,
          List.nil_append, List.cons_append] at hi
         rcases hi with rfl | rfl <;> rfl)

/-- C11: for every macro-generated selector, every choice of operands and every
configuration, at most two instructions are emitted (so 0, 1 or 2); two are
emitted only by an `AVX_OP3_WITH_MOVE` selector without AVX and with
`dst != src1`, and they are the setup move `movaps dst, src1` and the operation
`name dst, src2`; every emitted instruction has the caller's `dst` as its
destination operand, so running the emitted code leaves every vector register
other than `dst`, and every other source, as it was. -/
theorem selector_emits_at_most_two_all_into_dst (env : Env) (sel : Selector) :
    (sel.emitted env).code.length ≤ 2 ∧
    ((sel.emitted env).code.length = 2 →
      env.IsSupported .AVX = false ∧
      ∃ name dst src1 src2, sel = .op3WithMove name dst src1 src2 ∧ dst ≠ src1 ∧
        (sel.emitted env).code
          = [.sse "movaps" [.xmm dst, .xmm src1], .sse name [.xmm dst, src2]]) ∧
    (∀ i ∈ (sel.emitted env).code, i.destination = some sel.dst) ∧
    (∀ (f : Nat → Nat → Nat) (s : VecState Nat) (q : XMMRegister),
      sel.dst.xmmRegister ≠ some q →
      (runVec f s (sel.emitted env).code).xmm q = s.xmm q ∧
      (runVec f s (sel.emitted env).code).other = s.other) := by
  refine ⟨?_, ?_, Selector.emitted_destination env sel, ?_⟩
  · cases sel <;> cases ha : env.IsSupported .AVX <;> cases hc : env.scopeChecks <;>
      cases hd : env.dchecks <;>
      simp [Selector.emitted, AVX_OP3_WITH_TYPE, AVX_OP3_WITH_TYPE_SCOPE,
        AVX_OP2_WITH_TYPE, TwoOperand.AVX_OP3_WITH_TYPE, TwoOperand.AVX_OP2_WITH_TYPE_SCOPE,
        AVX_PACKED_OP3_WITH_TYPE, AVX_OP3_WITH_MOVE, NonSSE2.AVX_OP2_WITH_TYPE_SCOPE,
        NonSSE2.AVX_OP3_WITH_TYPE_SCOPE, CpuFeatureScope, DCHECK_EQ, UNREACHABLE, emit, skip,
        Emitted.andThen, ha, hc, hd] <;>
      (repeat' split) <;> simp
  · cases sel <;> cases ha : env.IsSupported .AVX <;> cases hc : env.scopeChecks <;>
      cases hd : env.dchecks <;>
      simp [Selector.emitted, AVX_OP3_WITH_TYPE, AVX_OP3_WITH_TYPE_SCOPE,
        AVX_OP2_WITH_TYPE, TwoOperand.AVX_OP3_WITH_TYPE, TwoOperand.AVX_OP2_WITH_TYPE_SCOPE,
        AVX_PACKED_OP3_WITH_TYPE, AVX_OP3_WITH_MOVE, NonSSE2.AVX_OP2_WITH_TYPE_SCOPE,
        NonSSE2.AVX_OP3_WITH_TYPE_SCOPE, CpuFeatureScope, DCHECK_EQ, UNREACHABLE, emit, skip,
        Emitted.andThen, ha, hc, hd] <;>
      (repeat' split) <;> simp_all <;>
      exact ⟨_, _, _, _, ⟨rfl, rfl, rfl, rfl⟩, by assumption, ⟨rfl, rfl⟩, rfl, rfl, rfl⟩
  · intro f s q hq
    exact runVec_frame f _ sel.dst q hq s (Selector.emitted_destination env sel)

/-- C11 at `Cmpeqps(xmm0, xmm1, xmm2)` without AVX: two instructions, the move
and the operation, both into `xmm0`. -/
theorem selector_emits_at_most_two_all_into_dst_witness :
    ((Selector.op3WithMove "cmpeqps" .xmm0 .xmm1 (.xmm .xmm2)).emitted sse4Debug).code.length
      = 2 ∧
    ∀ i ∈ ((Selector.op3WithMove "cmpeqps" .xmm0 .xmm1 (.xmm .xmm2)).emitted sse4Debug).code,
      i.destination = some (.xmm .xmm0) :=
  ⟨by decide,
   (selector_emits_at_most_two_all_into_dst sse4Debug
      (.op3WithMove "cmpeqps" .xmm0 .xmm1 (.xmm .xmm2))).2.2.1⟩

/-! ## C13: `AllocateStackSpace` -/

/-- C13: in the build without `V8_OS_WIN`, `AllocateStackSpace(bytes)` with
`bytes >= 0` emits nothing when `bytes == 0` and exactly `sub esp, bytes`
otherwise; after the emitted code `esp` is the old `esp` minus `bytes` modulo
`2^32` and memory is untouched; no emitted instruction reads or writes memory;
the register overload emits exactly `sub esp, reg`, which leaves `esp` at the
old `esp` minus the register, and does not access memory either. -/
theorem allocate_stack_space_subtracts (env : Env) (s : State) (bytes : Int) (reg : Register)
    (hbytes : 0 ≤ bytes) (hesp : s.regs .esp < 2 ^ 32) :
    AllocateStackSpace env bytes
      = ⟨if bytes = 0 then [] else [.subImm .esp bytes], .returned⟩ ∧
    (run s (AllocateStackSpace env bytes).code).1.regs .esp
      = toU32 ((s.regs .esp : Int) - bytes) ∧
    (run s (AllocateStackSpace env bytes).code).1.mem = s.mem ∧
    (∀ i ∈ (AllocateStackSpace env bytes).code, i.accessesMemory = false) ∧
    AllocateStackSpaceRegister reg = ⟨[.sub .esp (.reg reg)], .returned⟩ ∧
    (run s (AllocateStackSpaceRegister reg).code).1.regs .esp
      = toU32 ((s.regs .esp : Int) - (s.regs reg : Int)) ∧
    (∀ i ∈ (AllocateStackSpaceRegister reg).code, i.accessesMemory = false) := by
  have hge : decide (bytes < 0) = false := by simp [hbytes]
  have hcode : AllocateStackSpace env bytes
      = ⟨if bytes = 0 then [] else [.subImm .esp bytes], .returned⟩ := by
    by_cases h0 : bytes = 0 <;>
      simp [AllocateStackSpace, DCHECK_GE, hge, h0, emit, skip, Emitted.andThen]
  refine ⟨hcode, ?_, ?_, ?_, rfl, ?_, ?_⟩
  · rw [hcode]
    by_cases h0 : bytes = 0
    · subst h0
      simp only [if_true, run, toU32]
      omega
    · simp only [h0, if_false, run, exec, State.subtract, State.setReg, if_true]
      simp only [toU32]
      omega
  · rw [hcode]
    by_cases h0 : bytes = 0 <;>
      simp [h0, run, exec, State.subtract, State.setReg]
  · rw [hcode]
    by_cases h0 : bytes = 0 <;> simp [h0, Instr.accessesMemory]
  · simp [AllocateStackSpaceRegister, emit, run, exec, State.subtract, State.setReg,
      State.readOperand]
  · simp [AllocateStackSpaceRegister, emit, Instr.accessesMemory, Operand.isMemory]

/-- C13 at `AllocateStackSpace(16)` from `esp = 0x1000`: one `sub esp, 16`, and
`esp = 0xff0` afterwards. -/
theorem allocate_stack_space_subtracts_witness :
    (0 : Int) ≤ 16 ∧ stateStack.regs .esp < 2 ^ 32 ∧
    AllocateStackSpace sse4Debug 16 = ⟨[.subImm .esp 16], .returned⟩ ∧
    (run stateStack (AllocateStackSpace sse4Debug 16).code).1.regs .esp = 4080 :=
  ⟨by decide, by decide,
   (allocate_stack_space_subtracts sse4Debug stateStack 16 .eax (by decide) (by decide)).1,
   (allocate_stack_space_subtracts sse4Debug stateStack 16 .eax (by decide) (by decide)).2.1⟩

/-! ## C14: `Set` -/

/-- C14: `Set(dst, 0)` emits exactly `xor dst, dst` and `Set(dst, x)` with
`x != 0` emits exactly `mov dst, Immediate(x)`; in both cases the register holds
the word of `x` after the emitted instruction, from every state. -/
theorem set_loads_constant (s : State) (dst : Register) (x : Int) :
    Set dst 0 = ⟨[.xor_ dst dst], .returned⟩ ∧
    Set dst x = ⟨[if x = 0 then .xor_ dst dst else .movImm dst x], .returned⟩ ∧
    (run s (Set dst x).code).1.regs dst = toU32 x ∧
    (run s (Set dst x).code).2 = none := by
  refine ⟨rfl, ?_, ?_, ?_⟩
  · by_cases h : x = 0 <;> simp [Set, h, emit]
  · by_cases h : x = 0
    · subst h
      simp [Set, emit, run, exec, State.setReg, toU32]
    · simp [Set, h, emit, run, exec, State.setReg]
  · by_cases h : x = 0 <;> simp [Set, h, emit, run, exec]

/-! ## C15: `FieldOperand` -/

/-- C15: `FieldOperand(reg, o)` has displacement `o - kHeapObjectTag`; when
`reg` holds the tagged pointer `a + kHeapObjectTag` of the object starting at
`a`, it addresses `a + o` modulo `2^32`, and the indexed form addresses
`a + index * 2^scale + o`. -/
theorem field_operand_addresses_field (s : State) (reg index : Register) (scale : ScaleFactor)
    (a o : Int) (hreg : s.regs reg = toU32 (a + kHeapObjectTag)) :
    FieldOperand reg o = .mem reg (o - kHeapObjectTag) ∧
    s.address (FieldOperand reg o) = toU32 (a + o) ∧
    FieldOperandIndexed reg index scale o = .memIndexed reg index scale (o - kHeapObjectTag) ∧
    s.address (FieldOperandIndexed reg index scale o)
      = toU32 (a + (s.regs index : Int) * (scale.factor : Int) + o) := by
  refine ⟨rfl, ?_, rfl, ?_⟩
  · simp only [FieldOperand, State.address, hreg, kHeapObjectTag, toU32]
    omega
  · cases scale <;>
      simp only [FieldOperandIndexed, State.address, hreg, kHeapObjectTag, toU32,
        ScaleFactor.factor] <;>
      push_cast <;> omega

/-- C15 at the object starting at `0x2000` (tagged pointer `0x2001` in `eax`),
offset 12, index 3 scaled by 4: the operands address `0x200c` and `0x2018`. -/
theorem field_operand_addresses_field_witness :
    stateTagged.regs .eax = toU32 (8192 + kHeapObjectTag) ∧
    stateTagged.address (FieldOperand .eax 12) = 8204 ∧
    stateTagged.address (FieldOperandIndexed .eax .ecx .times_4 12) = 8216 :=
  ⟨by decide,
   (field_operand_addresses_field stateTagged .eax .ecx .times_4 8192 12 (by decide)).2.1,
   (field_operand_addresses_field stateTagged .eax .ecx .times_4 8192 12 (by decide)).2.2.2⟩

/-! ## C16: `EnterFrame` then `LeaveFrame` -/

/-- C16: for every frame type, running the code of `EnterFrame(type)` followed
by the code of `LeaveFrame(type)` from a state with a 32-bit stack pointer
leaves `esp` and `ebp` at their values before `EnterFrame`. -/
theorem enter_leave_frame_restores_esp_ebp (s : State) (type : StackFrameType)
    (hesp : s.regs .esp < 2 ^ 32) :
    (EnterFrame type).andThen (LeaveFrame type)
      = ⟨[.push .ebp, .mov .ebp (.reg .esp), .pushImm (TypeToMarker type), .leave],
          .returned⟩ ∧
    (run s ((EnterFrame type).andThen (LeaveFrame type)).code).1.regs .esp = s.regs .esp ∧
    (run s ((EnterFrame type).andThen (LeaveFrame type)).code).1.regs .ebp = s.regs .ebp ∧
    (run s ((EnterFrame type).andThen (LeaveFrame type)).code).2 = none := by
  have hcode : (EnterFrame type).andThen (LeaveFrame type)
      = ⟨[.push .ebp, .mov .ebp (.reg .esp), .pushImm (TypeToMarker type), .leave],
          .returned⟩ := rfl
  have h1 : toU32 ((s.regs .esp : Int) - 4) % 4294967296
      = toU32 ((s.regs .esp : Int) - 4) := by
    simp only [toU32]
    omega
  have h2 : toU32 ((s.regs .esp : Int) - 4)
      ≠ toU32 ((toU32 ((s.regs .esp : Int) - 4) : Int) - 4) := by
    simp only [toU32]
    omega
  have h3 : (toU32 ((s.regs .esp : Int) - 4) + 4) % 4294967296 = s.regs .esp := by
    simp only [toU32]
    omega
  refine ⟨hcode, ?_, ?_, ?_⟩
  · rw [hcode]
    simp only [run, exec, State.pushWord, State.popInto, State.setReg, State.setMem,
      State.readOperand]
    simp [h3]
  · rw [hcode]
    simp only [run, exec, State.pushWord, State.popInto, State.setReg, State.setMem,
      State.readOperand]
    simp [h1, h2]
  · rw [hcode]
    simp [run, exec]

/-- C16 at frame type 5 from `esp = 0x1000`, `ebp = 0`. -/
theorem enter_leave_frame_restores_esp_ebp_witness :
    stateStack.regs .esp < 2 ^ 32 ∧
    (run stateStack ((EnterFrame 5).andThen (LeaveFrame 5)).code).1.regs .esp = 4096 ∧
    (run stateStack ((EnterFrame 5).andThen (LeaveFrame 5)).code).1.regs .ebp = 0 :=
  ⟨by decide,
   (enter_leave_frame_restores_esp_ebp stateStack 5 (by decide)).2.1,
   (enter_leave_frame_restores_esp_ebp stateStack 5 (by decide)).2.2.1⟩

/-! ## C17: `PrepareCallCFunction` then `CallCFunction` -/

/-- The code of `AllocateStackSpace(bytes)` for `bytes >= 0`. -/
theorem AllocateStackSpace_nonneg (env : Env) (bytes : Int) (h : 0 ≤ bytes) :
    AllocateStackSpace env bytes
      = ⟨if bytes = 0 then [] else [.subImm .esp bytes], .returned⟩ := by
  have hge : decide (bytes < 0) = false := by simp [h]
  by_cases h0 : bytes = 0 <;>
    simp [AllocateStackSpace, DCHECK_GE, hge, h0, emit, skip, Emitted.andThen]

/-- The call and the reload of the saved stack pointer: if the word above the
argument slots holds `w` at the call and the called function keeps `esp` and
that word, `esp` is `w` afterwards. -/
theorem runForward_call_then_reload (callee : Routine → State → State) (function : Routine)
    (n : Int) (t : State) (w : Nat)
    (hcallee_esp : ∀ t, (callee function t).regs .esp = t.regs .esp)
    (hcallee_slot : ∀ t, (callee function t).mem (toU32 ((t.regs .esp : Int) + n * 4))
      = t.mem (toU32 ((t.regs .esp : Int) + n * 4)))
    (hw : t.mem (toU32 ((t.regs .esp : Int) + n * 4)) = w) :
    (runForward callee none t [.call function, .mov .esp (.mem .esp (n * 4))]).state.regs .esp
      = w ∧
    (runForward callee none t [.call function, .mov .esp (.mem .esp (n * 4))]).calls
      = [function] ∧
    (runForward callee none t [.call function, .mov .esp (.mem .esp (n * 4))]).exit
      = none := by
  simp [runForward, exec, State.setReg, State.readOperand, State.address, hcallee_esp,
    hcallee_slot, hw]

/-- C17: for every argument count `n >= 0`, every boundary (or none) and every
32-bit initial stack pointer, running the code of
`PrepareCallCFunction(n, scratch)` followed by the code of
`CallCFunction(function, n)` calls `function` once and leaves `esp` exactly as
it was before `PrepareCallCFunction`, provided `scratch` is not `esp` and the
called function returns with `esp` and the word above its argument slots as it
found them. -/
theorem prepare_then_call_c_function_restores_esp (env : Env) (frame_alignment : Nat)
    (n : Int) (scratch : Register) (function : Routine) (callee : Routine → State → State)
    (s : State) (hn : 0 ≤ n) (hscratch : scratch ≠ .esp) (hesp : s.regs .esp < 2 ^ 32)
    (hcallee_esp : ∀ t, (callee function t).regs .esp = t.regs .esp)
    (hcallee_slot : ∀ t, (callee function t).mem (toU32 ((t.regs .esp : Int) + n * 4))
      = t.mem (toU32 ((t.regs .esp : Int) + n * 4))) :
    ((PrepareCallCFunction env frame_alignment n scratch).andThen
        (CallCFunction frame_alignment function n)).outcome = .returned ∧
    (runForward callee none s ((PrepareCallCFunction env frame_alignment n scratch).andThen
        (CallCFunction frame_alignment function n)).code).state.regs .esp = s.regs .esp ∧
    (runForward callee none s ((PrepareCallCFunction env frame_alignment n scratch).andThen
        (CallCFunction frame_alignment function n)).code).calls = [function] ∧
    (runForward callee none s ((PrepareCallCFunction env frame_alignment n scratch).andThen
        (CallCFunction frame_alignment function n)).code).exit = none := by
  by_cases ha : frame_alignment = 0
  · subst ha
    have hbytes : (0 : Int) ≤ n * 4 := by omega
    by_cases h0 : n = 0
    · subst h0
      have hback : toU32 (s.regs .esp : Int) = s.regs .esp := by
        simp only [toU32]
        omega
      simp [PrepareCallCFunction, CallCFunction, kSystemPointerSize,
        AllocateStackSpace_nonneg env 0 (le_refl 0), emit, Emitted.andThen, runForward, exec,
        State.setReg, hcallee_esp, hback]
    · have hne : n * 4 ≠ 0 := by omega
      have hback : toU32 ((toU32 ((s.regs .esp : Int) - (toU32 (n * 4) : Int)) : Int) + n * 4)
          = s.regs .esp := by
        simp only [toU32]
        omega
      simp [PrepareCallCFunction, CallCFunction, kSystemPointerSize,
        AllocateStackSpace_nonneg env (n * 4) hbytes, hne, emit, Emitted.andThen, runForward,
        exec, State.subtract, State.setReg, hcallee_esp, hback]
  · have hbytes : (0 : Int) ≤ (n + 1) * 4 := by omega
    have hne : (n + 1) * 4 ≠ 0 := by omega
    have hcode : (PrepareCallCFunction env frame_alignment n scratch).andThen
          (CallCFunction frame_alignment function n)
        = ⟨[.mov scratch (.reg .esp), .subImm .esp ((n + 1) * 4),
            .and_ .esp (-(frame_alignment : Int)), .movStore (.mem .esp (n * 4)) scratch,
            .call function, .mov .esp (.mem .esp (n * 4))], .returned⟩ := by
      simp [PrepareCallCFunction, CallCFunction, kSystemPointerSize, ha,
        AllocateStackSpace_nonneg env ((n + 1) * 4) hbytes, hne, emit, Emitted.andThen]
    have hsplit : runForward callee none s
          [.mov scratch (.reg .esp), .subImm .esp ((n + 1) * 4),
            .and_ .esp (-(frame_alignment : Int)), .movStore (.mem .esp (n * 4)) scratch,
            .call function, .mov .esp (.mem .esp (n * 4))]
        = runForward callee none
            (run s [.mov scratch (.reg .esp), .subImm .esp ((n + 1) * 4),
              .and_ .esp (-(frame_alignment : Int)),
              .movStore (.mem .esp (n * 4)) scratch]).1
            [.call function, .mov .esp (.mem .esp (n * 4))] := by
      simp [runForward, run, exec]
    have hw : (run s [.mov scratch (.reg .esp), .subImm .esp ((n + 1) * 4),
              .and_ .esp (-(frame_alignment : Int)),
              .movStore (.mem .esp (n * 4)) scratch]).1.mem
          (toU32 (((run s [.mov scratch (.reg .esp), .subImm .esp ((n + 1) * 4),
              .and_ .esp (-(frame_alignment : Int)),
              .movStore (.mem .esp (n * 4)) scratch]).1.regs .esp : Int) + n * 4))
        = s.regs .esp := by
      simp [run, exec, State.subtract, State.setReg, State.setMem, State.readOperand,
        State.address, hscratch]
    rw [hcode, hsplit]
    exact ⟨rfl, runForward_call_then_reload callee function n _ _ hcallee_esp hcallee_slot hw⟩

/-- C17 at `n = 2`, boundary 16, `scratch = ebx`, from `esp = 0x1000`, with a
called function that clobbers `eax`, `ecx`, `edx`: the stack pointer is
realigned to `0xff0` for the call and is `0x1000` again afterwards. -/
theorem prepare_then_call_c_function_restores_esp_witness :
    (run stateStack (PrepareCallCFunction sse4Debug 16 2 .ebx).code).1.regs .esp = 4080 ∧
    (runForward clobberingCallee none stateStack
      ((PrepareCallCFunction sse4Debug 16 2 .ebx).andThen
        (CallCFunction 16 "f" 2)).code).state.regs .esp = 4096 :=
  ⟨by decide,
   (prepare_then_call_c_function_restores_esp sse4Debug 16 2 .ebx "f" clobberingCallee
      stateStack (by decide) (by decide) (by decide) (fun _ => rfl) (fun _ => rfl)).2.1⟩

/-! ## C18: the small-integer check of the write barrier -/

/-- Running a segment without calls and label positions, then the rest: the
rest starts in the state the segment ends in, skipping to the label the segment
branched to, if any. -/
theorem runForward_append (callee : Routine → State → State) (seg rest : List Instr)
    (hplain : ∀ i ∈ seg, i.isPlain = true) :
    (∀ s, runForward callee none s (seg ++ rest)
        = runForward callee (run s seg).2 (run s seg).1 rest) ∧
    (∀ s l, runForward callee (some l) s (seg ++ rest)
        = runForward callee (some l) s rest) := by
  induction seg with
  | nil => exact ⟨fun s => rfl, fun s l => rfl⟩
  | cons i seg ih =>
      have ih' := ih (fun j hj => hplain j (List.mem_cons_of_mem _ hj))
      have hi := hplain i (List.mem_cons_self _ _)
      constructor
      · intro s
        cases i <;> simp [Instr.isPlain] at hi <;>
          simp only [List.cons_append, runForward, run] <;>
          (cases h : exec s _ with
           | mk t o =>
             cases o with
             | none => simp [h, ih'.1]
             | some l => simp [h, ih'.2])
      · intro s l
        cases i <;> simp [Instr.isPlain] at hi <;>
          simp only [List.cons_append, runForward] <;> exact ih'.2 s l

/-- The code of `CheckPageFlag` has neither calls nor label positions. -/
theorem CheckPageFlag_plain (chunk : MemoryChunk) (object scratch : Register) (mask : Nat)
    (cc : Condition) (l : Label) (d : Distance) :
    ∀ i ∈ (CheckPageFlag chunk object scratch mask cc l d).code, i.isPlain = true := by
  by_cases h : scratch = object <;>
    simp [CheckPageFlag, h, emit, Emitted.andThen, Instr.isPlain]

/-- A `CheckPageFlag` on `zero` falls through when the tested flag of the page
of `object` is set; it writes `scratch` only. -/
theorem CheckPageFlag_zero_falls_through (chunk : MemoryChunk) (t : State)
    (object scratch : Register) (mask : Nat) (l : Label) (d : Distance)
    (hflag : (chunk.pageFlags t (t.regs object) &&& mask) % 2 ^ 32 ≠ 0) :
    (run t (CheckPageFlag chunk object scratch mask .zero l d).code).2 = none ∧
    (run t (CheckPageFlag chunk object scratch mask .zero l d).code).1.mem = t.mem ∧
    ∀ q, q ≠ scratch →
      (run t (CheckPageFlag chunk object scratch mask .zero l d).code).1.regs q = t.regs q := by
  simp only [MemoryChunk.pageFlags] at hflag
  norm_num at hflag
  by_cases h : scratch = object
  · subst h
    refine ⟨?_, ?_, ?_⟩
    · simp [CheckPageFlag, emit, Emitted.andThen, run, exec, State.setReg, State.readOperand,
        State.address, Condition.holds, logicFlags, hflag]
    · simp [CheckPageFlag, emit, Emitted.andThen, run, exec, State.setReg, State.readOperand,
        State.address, Condition.holds, logicFlags, hflag]
    · intro q hq
      simp [CheckPageFlag, emit, Emitted.andThen, run, exec, State.setReg, State.readOperand,
        State.address, Condition.holds, logicFlags, hflag, hq]
  · have hoc : (object = scratch) = False := by
      simp only [eq_iff_iff, iff_false]
      exact fun e => h e.symm
    rw [Nat.land_comm (t.regs object)] at hflag
    refine ⟨?_, ?_, ?_⟩
    · simp [CheckPageFlag, h, hoc, emit, Emitted.andThen, run, exec, State.setReg,
        State.readOperand, State.address, Condition.holds, logicFlags, hflag]
    · simp [CheckPageFlag, h, hoc, emit, Emitted.andThen, run, exec, State.setReg,
        State.readOperand, State.address, Condition.holds, logicFlags, hflag]
    · intro q hq
      simp [CheckPageFlag, h, hoc, emit, Emitted.andThen, run, exec, State.setReg,
        State.readOperand, State.address, Condition.holds, logicFlags, hflag, hq]

/-- The code of `JumpIfSmi` has neither calls nor label positions. -/
theorem JumpIfSmi_plain (value : Register) (l : Label) (d : Distance) :
    ∀ i ∈ (JumpIfSmi value l d).code, i.isPlain = true := by
  simp [JumpIfSmi, emit, Emitted.andThen, Instr.isPlain]

/-- Running `JumpIfSmi`: the branch is taken exactly on a clear low bit, and
neither registers nor memory change. -/
theorem JumpIfSmi_run (s : State) (value : Register) (l : Label) (d : Distance) :
    (run s (JumpIfSmi value l d).code).2 = (if s.regs value % 2 = 0 then some l else none) ∧
    (run s (JumpIfSmi value l d).code).1.regs = s.regs ∧
    (run s (JumpIfSmi value l d).code).1.mem = s.mem := by
  have hcode : (JumpIfSmi value l d).code = [.test (.reg value) 1, .j .zero l d] := rfl
  refine ⟨?_, ?_, ?_⟩
  · rw [hcode, run_test_j_zero, and_one_mod_word]
    rfl
  · rw [hcode]
    simp only [run, exec]
    split <;> (rename_i heq; rw [← (Prod.mk.inj heq).1])
  · rw [hcode]
    simp only [run, exec]
    split <;> (rename_i heq; rw [← (Prod.mk.inj heq).1])

/-- The code of `RecordWrite`, in segments. -/
theorem RecordWrite_code (chunk : MemoryChunk) (object address value : Register)
    (save_fp : SaveFPRegsMode) (rsa : RememberedSetAction) (smi_check : SmiCheck)
    (done : Label) :
    (RecordWrite chunk object address value save_fp rsa smi_check done).code
      = (if smi_check = .INLINE_SMI_CHECK then (JumpIfSmi value done .kNear).code else []) ++
        ((CheckPageFlag chunk value value chunk.kPointersToHereAreInterestingMask .zero done
            .kNear).code ++
          ((CheckPageFlag chunk object value chunk.kPointersFromHereAreInterestingMask .zero
              done .kNear).code ++
            [.call recordWriteStub, .bind done])) := by
  by_cases h : value = object <;> cases smi_check <;>
    simp [RecordWrite, CheckPageFlag, CallRecordWriteStub, JumpIfSmi, h, emit, skip,
      Emitted.andThen]

/-- The code of `RecordWriteField`, in segments. -/
theorem RecordWriteField_code (chunk : MemoryChunk) (object : Register) (offset : Int)
    (value scratch : Register) (save_fp : SaveFPRegsMode) (rsa : RememberedSetAction)
    (smi_check : SmiCheck) (done inner_done : Label) :
    (RecordWriteField chunk object offset value scratch save_fp rsa smi_check done
        inner_done).code
      = (if smi_check = .INLINE_SMI_CHECK then (JumpIfSmi value done .kFar).code else []) ++
        ([.lea scratch (FieldOperand object offset)] ++
          ((CheckPageFlag chunk value value chunk.kPointersToHereAreInterestingMask .zero
              inner_done .kNear).code ++
            ((CheckPageFlag chunk object value chunk.kPointersFromHereAreInterestingMask
                .zero inner_done .kNear).code ++
              [.call recordWriteStub, .bind inner_done, .bind done]))) := by
  by_cases h : value = object <;> cases smi_check <;>
    simp [RecordWriteField, RecordWrite, CheckPageFlag, CallRecordWriteStub, JumpIfSmi, h, emit,
      skip, Emitted.andThen]

/-- The flags word of a page depends on memory only. -/
theorem MemoryChunk.pageFlags_congr (chunk : MemoryChunk) (s t : State) (p : Nat)
    (h : t.mem = s.mem) : chunk.pageFlags t p = chunk.pageFlags s p := by
  simp [MemoryChunk.pageFlags, h]

/-- C18: with `smi_check = INLINE_SMI_CHECK`, when the stored value is a small
integer (low bit 0) the code of `RecordWrite` and of `RecordWriteField` runs to
its end without calling the out-of-line barrier routine; when the value is a
heap pointer (low bit 1) and the interest flags of the page of the value and of
the page of the object are set, it calls the routine, exactly once (the
registers being distinct as the functions require). -/
theorem record_write_calls_stub_iff_not_smi (chunk : MemoryChunk)
    (object address value scratch : Register) (offset : Int) (save_fp : SaveFPRegsMode)
    (rsa : RememberedSetAction) (done inner_done : Label)
    (callee : Routine → State → State) (s : State) :
    (s.regs value % 2 = 0 →
      (runForward callee none s
        (RecordWrite chunk object address value save_fp rsa .INLINE_SMI_CHECK done).code).calls
        = [] ∧
      (runForward callee none s
        (RecordWriteField chunk object offset value scratch save_fp rsa .INLINE_SMI_CHECK done
          inner_done).code).calls = []) ∧
    (s.regs value % 2 = 1 → object ≠ value →
      (chunk.pageFlags s (s.regs value) &&& chunk.kPointersToHereAreInterestingMask) % 2 ^ 32
        ≠ 0 →
      (chunk.pageFlags s (s.regs object) &&& chunk.kPointersFromHereAreInterestingMask) % 2 ^ 32
        ≠ 0 →
      (runForward callee none s
        (RecordWrite chunk object address value save_fp rsa .INLINE_SMI_CHECK done).code).calls
        = [recordWriteStub] ∧
      (scratch ≠ value → scratch ≠ object →
        (runForward callee none s
          (RecordWriteField chunk object offset value scratch save_fp rsa .INLINE_SMI_CHECK
            done inner_done).code).calls = [recordWriteStub])) := by
  have hlea : ∀ i ∈ [Instr.lea scratch (FieldOperand object offset)], i.isPlain = true := by
    simp [Instr.isPlain]
  constructor
  · intro hsmi
    constructor
    · obtain ⟨hj, -, -⟩ := JumpIfSmi_run s value done .kNear
      rw [RecordWrite_code, if_pos rfl,
        (runForward_append callee _ _ (JumpIfSmi_plain value done .kNear)).1 s, hj,
        if_pos hsmi, (runForward_append callee _ _ (CheckPageFlag_plain _ _ _ _ _ _ _)).2,
        (runForward_append callee _ _ (CheckPageFlag_plain _ _ _ _ _ _ _)).2]
      simp [runForward]
    · obtain ⟨hj, -, -⟩ := JumpIfSmi_run s value done .kFar
      rw [RecordWriteField_code, if_pos rfl,
        (runForward_append callee _ _ (JumpIfSmi_plain value done .kFar)).1 s, hj,
        if_pos hsmi, (runForward_append callee _ _ hlea).2,
        (runForward_append callee _ _ (CheckPageFlag_plain _ _ _ _ _ _ _)).2,
        (runForward_append callee _ _ (CheckPageFlag_plain _ _ _ _ _ _ _)).2]
      by_cases hl : inner_done = done <;> simp [runForward, exec, hl]
  · intro hptr hov hto hfrom
    have hnot : ¬ s.regs value % 2 = 0 := by omega
    constructor
    · obtain ⟨hj, hjr, hjm⟩ := JumpIfSmi_run s value done .kNear
      rw [RecordWrite_code, if_pos rfl,
        (runForward_append callee _ _ (JumpIfSmi_plain value done .kNear)).1 s, hj,
        if_neg hnot]
      generalize (run s (JumpIfSmi value done .kNear).code).1 = t1 at hjr hjm ⊢
      have hf1 : (chunk.pageFlags t1 (t1.regs value)
          &&& chunk.kPointersToHereAreInterestingMask) % 2 ^ 32 ≠ 0 := by
        rw [chunk.pageFlags_congr s t1 _ hjm, hjr]
        exact hto
      obtain ⟨c1, c1m, c1r⟩ := CheckPageFlag_zero_falls_through chunk t1 value value
        chunk.kPointersToHereAreInterestingMask done .kNear hf1
      rw [(runForward_append callee _ _ (CheckPageFlag_plain _ _ _ _ _ _ _)).1 t1, c1]
      generalize (run t1 (CheckPageFlag chunk value value
        chunk.kPointersToHereAreInterestingMask .zero done .kNear).code).1 = t2 at c1m c1r ⊢
      have hf2 : (chunk.pageFlags t2 (t2.regs object)
          &&& chunk.kPointersFromHereAreInterestingMask) % 2 ^ 32 ≠ 0 := by
        rw [chunk.pageFlags_congr s t2 _ (c1m.trans hjm), c1r object hov, hjr]
        exact hfrom
      obtain ⟨c2, -, -⟩ := CheckPageFlag_zero_falls_through chunk t2 object value
        chunk.kPointersFromHereAreInterestingMask done .kNear hf2
      rw [(runForward_append callee _ _ (CheckPageFlag_plain _ _ _ _ _ _ _)).1 t2, c2]
      simp [runForward, exec]
    · intro hsv hso
      obtain ⟨hj, hjr, hjm⟩ := JumpIfSmi_run s value done .kFar
      rw [RecordWriteField_code, if_pos rfl,
        (runForward_append callee _ _ (JumpIfSmi_plain value done .kFar)).1 s, hj,
        if_neg hnot]
      generalize (run s (JumpIfSmi value done .kFar).code).1 = t0 at hjr hjm ⊢
      rw [(runForward_append callee _ _ hlea).1 t0]
      have hl2 : (run t0 [Instr.lea scratch (FieldOperand object offset)]).2 = none := by
        simp [run, exec]
      have hlm : (run t0 [Instr.lea scratch (FieldOperand object offset)]).1.mem = s.mem := by
        simp [run, exec, State.setReg, hjm]
      have hlr : ∀ q, q ≠ scratch →
          (run t0 [Instr.lea scratch (FieldOperand object offset)]).1.regs q = s.regs q := by
        intro q hq
        simp [run, exec, State.setReg, hq, hjr]
      rw [hl2]
      generalize (run t0 [Instr.lea scratch (FieldOperand object offset)]).1 = t1
        at hlm hlr ⊢
      have hf1 : (chunk.pageFlags t1 (t1.regs value)
          &&& chunk.kPointersToHereAreInterestingMask) % 2 ^ 32 ≠ 0 := by
        rw [chunk.pageFlags_congr s t1 _ hlm, hlr value (Ne.symm hsv)]
        exact hto
      obtain ⟨c1, c1m, c1r⟩ := CheckPageFlag_zero_falls_through chunk t1 value value
        chunk.kPointersToHereAreInterestingMask inner_done .kNear hf1
      rw [(runForward_append callee _ _ (CheckPageFlag_plain _ _ _ _ _ _ _)).1 t1, c1]
      generalize (run t1 (CheckPageFlag chunk value value
        chunk.kPointersToHereAreInterestingMask .zero inner_done .kNear).code).1 = t2
        at c1m c1r ⊢
      have hf2 : (chunk.pageFlags t2 (t2.regs object)
          &&& chunk.kPointersFromHereAreInterestingMask) % 2 ^ 32 ≠ 0 := by
        rw [chunk.pageFlags_congr s t2 _ (c1m.trans hlm), c1r object hov,
          hlr object (Ne.symm hso)]
        exact hfrom
      obtain ⟨c2, -, -⟩ := CheckPageFlag_zero_falls_through chunk t2 object value
        chunk.kPointersFromHereAreInterestingMask inner_done .kNear hf2
      rw [(runForward_append callee _ _ (CheckPageFlag_plain _ _ _ _ _ _ _)).1 t2, c2]
      simp [runForward, exec]

/-- C18 with 256 KB pages, `object = eax`, `value = ebx`, `scratch = ecx`: the
small integer 5 (word 10) in `ebx` gives no call, the heap pointer `0x80001`
with both page flags set gives the one call of the barrier routine. -/
theorem record_write_calls_stub_iff_not_smi_witness :
    (runForward clobberingCallee none (stateBarrier 10)
      (RecordWriteField chunk256K .eax 8 .ebx .ecx .kDontSaveFPRegs .EMIT_REMEMBERED_SET
        .INLINE_SMI_CHECK 1 2).code).calls = [] ∧
    (runForward clobberingCallee none (stateBarrier 524289)
      (RecordWrite chunk256K .eax .ecx .ebx .kDontSaveFPRegs .EMIT_REMEMBERED_SET
        .INLINE_SMI_CHECK 1).code).calls = [recordWriteStub] ∧
    (runForward clobberingCallee none (stateBarrier 524289)
      (RecordWriteField chunk256K .eax 8 .ebx .ecx .kDontSaveFPRegs .EMIT_REMEMBERED_SET
        .INLINE_SMI_CHECK 1 2).code).calls = [recordWriteStub] :=
  ⟨((record_write_calls_stub_iff_not_smi chunk256K .eax .ecx .ebx .ecx 8 .kDontSaveFPRegs
      .EMIT_REMEMBERED_SET 1 2 clobberingCallee (stateBarrier 10)).1 (by decide)).2,
   ((record_write_calls_stub_iff_not_smi chunk256K .eax .ecx .ebx .ecx 8 .kDontSaveFPRegs
      .EMIT_REMEMBERED_SET 1 2 clobberingCallee (stateBarrier 524289)).2 (by decide)
      (by decide) (by decide) (by decide)).1,
   ((record_write_calls_stub_iff_not_smi chunk256K .eax .ecx .ebx .ecx 8 .kDontSaveFPRegs
      .EMIT_REMEMBERED_SET 1 2 clobberingCallee (stateBarrier 524289)).2 (by decide)
      (by decide) (by decide) (by decide)).2 (by decide) (by decide)⟩

/-! ## C20: `CreateKeyWithHash` overrides H1 -/

/-- The `kH2Bits` low bits of a word, as a remainder. -/
theorem H2_eq_mod (hash : Nat) : H2 hash = hash % 128 := by
  have h := Nat.and_pow_two_sub_one_eq_mod hash 7
  simpa [H2, kH2Bits] using h

/-- The hash without its low bits, as a quotient. -/
theorem H1_eq_div (hash : Nat) : H1 hash = hash / 128 := by
  simp [H1, kH2Bits, Nat.shiftRight_eq_div_pow]

/-- An override below `2^23` shifted over the H2 bits and joined with H2 bits is
the sum of the two parts. -/
theorem shifted_override_or_h2 (v a : Nat) (hv : v < 2 ^ 23) :
    ((v <<< kH2Bits) % 2 ^ 32) ||| H2 a = 128 * v + a % 128 := by
  have hlt : a % 128 < 2 ^ 7 := by omega
  have h := Nat.mul_add_lt_is_or hlt v
  have hs : (v <<< kH2Bits) % 2 ^ 32 = 2 ^ 7 * v := by
    simp only [kH2Bits, Nat.shiftLeft_eq]
    omega
  rw [hs, H2_eq_mod, ← h]

/-- The hash read back from a raw hash field written from a hash below `2^30`. -/
theorem hash_of_shifted (sym : Symbol) (h : Nat) (hh : h < 2 ^ 30) :
    (sym.set_raw_hash_field ((h <<< kHashShift) % 2 ^ 32)).hash = h := by
  simp only [Symbol.hash, Symbol.set_raw_hash_field, kHashShift, Nat.shiftLeft_eq,
    Nat.shiftRight_eq_div_pow]
  omega

/-- The symbol behind a handle in use, after writing it. -/
theorem Isolate.symbol_setSymbol (isolate : Isolate) (n : Nat) (y : Symbol)
    (h : n < isolate.symbols.length) : (isolate.setSymbol n y).symbol n = y := by
  simp [Isolate.setSymbol, Isolate.symbol, h]

/-- C20: for a key whose string is not in the cache, with `h1_override = v`,
`v < 2^23`, and no `h2_override`, `CreateKeyWithHash` returns the handle of a
new symbol whose hash `h` is `(v << kH2Bits) | H2(actual_hash)`, so that
`H1(h) = v` and `H2(h) = H2(actual_hash)`, where `actual_hash` is the hash the
new symbol had when the factory created it. -/
theorem create_key_overrides_h1 (dchecks : Bool) (isolate : Isolate) (keys : KeyCache)
    (key : Key) (v : Nat) (hnew : keys.find key.str = none)
    (hh1 : key.h1_override = some v) (hv : v < 2 ^ 23) (hh2 : key.h2_override = none) :
    (CreateKeyWithHash dchecks isolate keys key).outcome = .returned ∧
    (CreateKeyWithHash dchecks isolate keys key).key_symbol = isolate.symbols.length ∧
    ((CreateKeyWithHash dchecks isolate keys key).isolate.symbol
        (CreateKeyWithHash dchecks isolate keys key).key_symbol).hash
      = (v <<< kH2Bits) ||| H2 ((isolate.NewSymbol.2.symbol isolate.NewSymbol.1).hash) ∧
    H1 ((CreateKeyWithHash dchecks isolate keys key).isolate.symbol
        (CreateKeyWithHash dchecks isolate keys key).key_symbol).hash = v ∧
    H2 ((CreateKeyWithHash dchecks isolate keys key).isolate.symbol
        (CreateKeyWithHash dchecks isolate keys key).key_symbol).hash
      = H2 ((isolate.NewSymbol.2.symbol isolate.NewSymbol.1).hash) := by
  have hlen0 : isolate.NewSymbol.1 < isolate.NewSymbol.2.symbols.length := by
    simp [Isolate.NewSymbol]
  have hfst : isolate.NewSymbol.1 = isolate.symbols.length := rfl
  cases hN : isolate.NewSymbol with
  | mk n I0 =>
    rw [hN] at hlen0 hfst
    simp only at hlen0 hfst
    simp only [CreateKeyWithHash, hnew, hh1, hh2, hN, fakeHash, Option.isSome_some,
      Option.isSome_none, Bool.or_false, if_true, Option.any_none, Bool.and_false,
      Bool.false_eq_true, if_false]
    have e1 := Isolate.symbol_setSymbol I0 n
      { raw_hash_field := (I0.symbol n).raw_hash_field, description := some key.str } hlen0
    have eA : Symbol.hash
        { raw_hash_field := (I0.symbol n).raw_hash_field, description := some key.str }
        = (I0.symbol n).hash := rfl
    have hlen1 : n < (I0.setSymbol n
        { raw_hash_field := (I0.symbol n).raw_hash_field,
          description := some key.str }).symbols.length := by
      simpa [Isolate.setSymbol] using hlen0
    have e2 : ∀ y, ((I0.setSymbol n
        { raw_hash_field := (I0.symbol n).raw_hash_field,
          description := some key.str }).setSymbol n y).symbol n = y :=
      fun y => Isolate.symbol_setSymbol _ n y hlen1
    simp only [e1, eA, e2]
    generalize (I0.symbol n).hash = A
    have eF := shifted_override_or_h2 v A hv
    have hF30 : ((v <<< kH2Bits) % 2 ^ 32 ||| H2 A) < 2 ^ 30 := by
      rw [eF]
      omega
    have hshift : (v <<< kH2Bits) % 2 ^ 32 = v <<< kH2Bits := by
      simp only [kH2Bits, Nat.shiftLeft_eq]
      omega
    simp only [hash_of_shifted _ _ hF30, ne_eq, not_true_eq_false, decide_False,
      Bool.and_false, Bool.false_eq_true, if_false, e2]
    refine ⟨trivial, hfst, ?_, ?_, ?_⟩
    · rw [hshift]
    · rw [eF, H1_eq_div]
      omega
    · rw [eF, H2_eq_mod, H2_eq_mod]
      omega

/-- C20 at the key `"a"` with `h1_override = 5` in an empty cache, where the
factory gives the new symbol the hash 1000: the returned symbol 0 has hash
`5 * 128 + 1000 % 128 = 744`, so H1 is 5 and H2 is that of 1000. -/
theorem create_key_overrides_h1_witness :
    KeyCache.find [] "a" = none ∧ (5 : Nat) < 2 ^ 23 ∧
    (CreateKeyWithHash true isolateEmpty [] ⟨"a", some 5, none⟩).outcome = .returned ∧
    ((CreateKeyWithHash true isolateEmpty [] ⟨"a", some 5, none⟩).isolate.symbol
        (CreateKeyWithHash true isolateEmpty [] ⟨"a", some 5, none⟩).key_symbol).hash = 744 ∧
    H1 ((CreateKeyWithHash true isolateEmpty [] ⟨"a", some 5, none⟩).isolate.symbol
        (CreateKeyWithHash true isolateEmpty [] ⟨"a", some 5, none⟩).key_symbol).hash = 5 :=
  ⟨rfl, by decide,
   (create_key_overrides_h1 true isolateEmpty [] ⟨"a", some 5, none⟩ 5 rfl rfl (by decide)
      rfl).1,
   (create_key_overrides_h1 true isolateEmpty [] ⟨"a", some 5, none⟩ 5 rfl rfl (by decide)
      rfl).2.2.1,
   (create_key_overrides_h1 true isolateEmpty [] ⟨"a", some 5, none⟩ 5 rfl rfl (by decide)
      rfl).2.2.2.1⟩

/-! ## C25: `SmiTag` outside the small-integer range -/

/-- The register after the code of `SmiTag(reg)` followed by `SmiUntag(reg)`:
the doubled word, taken as signed, halved rounding down. -/
theorem run_tag_untag (s : State) (reg : Register) :
    (run s ((SmiTag reg).andThen (SmiUntag reg)).code).1.regs reg
      = toU32 (toS32 ((s.regs reg + s.regs reg) % 2 ^ 32) / 2) := by
  simp [SmiTag, SmiUntag, emit, Emitted.andThen, run, exec, State.setReg, kSmiTagSize]

/-- The register after the code of `SmiTag(reg)`: the doubled word. -/
theorem run_tag (s : State) (reg : Register) :
    (run s (SmiTag reg).code).1.regs reg = (s.regs reg + s.regs reg) % 2 ^ 32 := by
  simp [SmiTag, emit, run, exec, State.setReg]

/-- C25: `SmiTag(reg)` emits exactly the one instruction `add reg, reg`, with no
check of any kind; for every signed 32-bit `v` held in `reg`, the code of
`SmiTag` followed by `SmiUntag` leaves `v` in `reg` if and only if
`-2^30 ≤ v < 2^30`, so outside that range the register differs from `v`. -/
theorem smi_round_trip_identity_iff_in_range (s : State) (reg : Register) (v : Int)
    (hlo : -(2 : Int) ^ 31 ≤ v) (hhi : v < (2 : Int) ^ 31) (hreg : s.regs reg = toU32 v) :
    SmiTag reg = ⟨[.add reg reg], .returned⟩ ∧
    ((run s ((SmiTag reg).andThen (SmiUntag reg)).code).1.regs reg = toU32 v
      ↔ (-(2 : Int) ^ 30 ≤ v ∧ v < (2 : Int) ^ 30)) ∧
    (¬ (-(2 : Int) ^ 30 ≤ v ∧ v < (2 : Int) ^ 30) →
      (run s ((SmiTag reg).andThen (SmiUntag reg)).code).1.regs reg ≠ toU32 v) := by
  have key : (run s ((SmiTag reg).andThen (SmiUntag reg)).code).1.regs reg = toU32 v
      ↔ (-(2 : Int) ^ 30 ≤ v ∧ v < (2 : Int) ^ 30) := by
    rw [run_tag_untag, hreg]
    simp only [toU32, toS32]
    norm_num
    split <;> omega
  exact ⟨rfl, key, fun h e => h (key.mp e)⟩

/-- C25 at `v = 2^30`, the first value above the range: the round trip leaves
the word of `-2^30` in the register, not `2^30`. -/
theorem smi_round_trip_identity_iff_in_range_witness :
    (stateOfWord 1073741824).regs .eax = toU32 1073741824 ∧
    (run (stateOfWord 1073741824) ((SmiTag .eax).andThen (SmiUntag .eax)).code).1.regs .eax
      = toU32 (-1073741824) ∧
    (run (stateOfWord 1073741824) ((SmiTag .eax).andThen (SmiUntag .eax)).code).1.regs .eax
      ≠ toU32 1073741824 :=
  ⟨by decide, by decide,
   (smi_round_trip_identity_iff_in_range (stateOfWord 1073741824) .eax 1073741824
      (by decide) (by decide) (by decide)).2.2 (by decide)⟩

/-! ## C28: order and addition under `SmiTag` -/

/-- C28: for `a`, `b` in `[-2^30, 2^30)` held in `reg`, the words `SmiTag`
leaves compare as `a` and `b` do: as signed 32-bit values the tagged `a` is
below the tagged `b` if and only if `a < b`, and the tagged words are equal if
and only if `a = b`; when `a + b` is in the range too, the tagged `a + b` is
the 32-bit sum of the tagged `a` and the tagged `b`, and that sum does not
overflow as a signed addition. -/
theorem smi_tag_preserves_order_and_sum (sa sb sc : State) (reg : Register) (a b : Int)
    (ha : -(2 : Int) ^ 30 ≤ a ∧ a < (2 : Int) ^ 30)
    (hb : -(2 : Int) ^ 30 ≤ b ∧ b < (2 : Int) ^ 30)
    (hsa : sa.regs reg = toU32 a) (hsb : sb.regs reg = toU32 b)
    (hsc : sc.regs reg = toU32 (a + b)) :
    (toS32 ((run sa (SmiTag reg).code).1.regs reg)
        < toS32 ((run sb (SmiTag reg).code).1.regs reg) ↔ a < b) ∧
    ((run sa (SmiTag reg).code).1.regs reg = (run sb (SmiTag reg).code).1.regs reg
      ↔ a = b) ∧
    (-(2 : Int) ^ 30 ≤ a + b ∧ a + b < (2 : Int) ^ 30 →
      (run sc (SmiTag reg).code).1.regs reg
        = ((run sa (SmiTag reg).code).1.regs reg
            + (run sb (SmiTag reg).code).1.regs reg) % 2 ^ 32 ∧
      toS32 ((run sc (SmiTag reg).code).1.regs reg)
        = toS32 ((run sa (SmiTag reg).code).1.regs reg)
          + toS32 ((run sb (SmiTag reg).code).1.regs reg)) := by
  obtain ⟨ha1, ha2⟩ := ha
  obtain ⟨hb1, hb2⟩ := hb
  rw [run_tag, run_tag, run_tag, hsa, hsb, hsc]
  simp only [toU32, toS32]
  norm_num
  refine ⟨?_, ?_, ?_⟩
  · split <;> split <;> omega
  · omega
  · intro h1 h2
    constructor
    · omega
    · split <;> split <;> split <;> omega

/-- C28 at `a = -5`, `b = 3`: the tagged words are those of `-10` and `6`, in
the same order, and the tagged `-2` is their 32-bit sum. -/
theorem smi_tag_preserves_order_and_sum_witness :
    (toS32 ((run (stateOfWord (toU32 (-5))) (SmiTag .eax).code).1.regs .eax)
        < toS32 ((run (stateOfWord (toU32 3)) (SmiTag .eax).code).1.regs .eax)
      ↔ (-5 : Int) < 3) ∧
    (run (stateOfWord (toU32 (-2))) (SmiTag .eax).code).1.regs .eax
      = ((run (stateOfWord (toU32 (-5))) (SmiTag .eax).code).1.regs .eax
          + (run (stateOfWord (toU32 3)) (SmiTag .eax).code).1.regs .eax) % 2 ^ 32 :=
  ⟨(smi_tag_preserves_order_and_sum (stateOfWord (toU32 (-5))) (stateOfWord (toU32 3))
      (stateOfWord (toU32 (-2))) .eax (-5) 3 (by decide) (by decide) (by decide) (by decide)
      (by decide)).1,
   ((smi_tag_preserves_order_and_sum (stateOfWord (toU32 (-5))) (stateOfWord (toU32 3))
      (stateOfWord (toU32 (-2))) .eax (-5) 3 (by decide) (by decide) (by decide) (by decide)
      (by decide)).2.2
      (by decide)).1⟩

/-! ## C27: `JumpIfLessThan` and `JumpIfEqual` -/

/-- C27: `JumpIfLessThan(a, b, dest)` emits `cmp a, b ; j less, dest` and
`JumpIfEqual(a, b, dest)` emits `cmp a, b ; j equal, dest`; for every word in
`a` and every `int32` `b`, the first takes its branch if and only if the signed
value of `a` is below `b` (whether or not the subtraction overflows) and the
second if and only if the signed value of `a` equals `b`. -/
theorem jump_if_less_than_is_signed_order (s : State) (a : Register) (b : Int) (dest : Label)
    (hlo : -(2 : Int) ^ 31 ≤ b) (hhi : b < (2 : Int) ^ 31) :
    JumpIfLessThan a b dest = ⟨[.cmpImm a b, .j .less dest .kFar], .returned⟩ ∧
    JumpIfEqual a b dest = ⟨[.cmpImm a b, .j .equal dest .kFar], .returned⟩ ∧
    ((run s (JumpIfLessThan a b dest).code).2 = some dest ↔ toS32 (s.regs a) < b) ∧
    ((run s (JumpIfLessThan a b dest).code).2 = none ↔ b ≤ toS32 (s.regs a)) ∧
    ((run s (JumpIfEqual a b dest).code).2 = some dest ↔ toS32 (s.regs a) = b) ∧
    ((run s (JumpIfEqual a b dest).code).2 = none ↔ toS32 (s.regs a) ≠ b) := by
  have hless : Condition.holds (s.subtract a (toU32 b)).flags .less = true
      ↔ toS32 (s.regs a) < b := by
    simp only [Condition.holds, State.subtract, arithFlags, toU32, toS32, bne_iff_ne, ne_eq,
      decide_eq_decide]
    norm_num
    split <;> split <;> split <;> omega
  have heq : Condition.holds (s.subtract a (toU32 b)).flags .equal = true
      ↔ toS32 (s.regs a) = b := by
    simp only [Condition.holds, State.subtract, arithFlags, toU32, toS32, beq_iff_eq]
    norm_num
    split <;> omega
  have hrun : ∀ cc, (run s [.cmpImm a b, .j cc dest .kFar]).2
      = if Condition.holds (s.subtract a (toU32 b)).flags cc = true then some dest
        else none := by
    intro cc
    by_cases h : Condition.holds (s.subtract a (toU32 b)).flags cc = true <;>
      simp [run, exec, h]
  have c1 : (JumpIfLessThan a b dest).code = [.cmpImm a b, .j .less dest .kFar] := rfl
  have c2 : (JumpIfEqual a b dest).code = [.cmpImm a b, .j .equal dest .kFar] := rfl
  rw [c1, c2, hrun, hrun]
  refine ⟨rfl, rfl, ?_, ?_, ?_, ?_⟩
  · rw [← hless]
    by_cases h : Condition.holds (s.subtract a (toU32 b)).flags .less = true <;> simp [h]
  · rw [← not_lt, ← hless]
    by_cases h : Condition.holds (s.subtract a (toU32 b)).flags .less = true <;> simp [h]
  · rw [← heq]
    by_cases h : Condition.holds (s.subtract a (toU32 b)).flags .equal = true <;> simp [h]
  · rw [ne_eq, ← heq]
    by_cases h : Condition.holds (s.subtract a (toU32 b)).flags .equal = true <;> simp [h]

/-- C27 at `a = -2^31` (word `0x80000000`) against `b = 1`, where `a - b`
overflows: the branch on `less` is taken, the branch on `equal` is not. -/
theorem jump_if_less_than_is_signed_order_witness :
    (run (stateOfWord 2147483648) (JumpIfLessThan .eax 1 7).code).2 = some 7 ∧
    (run (stateOfWord 2147483648) (JumpIfEqual .eax 1 7).code).2 = none :=
  ⟨(jump_if_less_than_is_signed_order (stateOfWord 2147483648) .eax 1 7 (by decide)
      (by decide)).2.2.1.mpr (by decide),
   (jump_if_less_than_is_signed_order (stateOfWord 2147483648) .eax 1 7 (by decide)
      (by decide)).2.2.2.2.2.mpr (by decide)⟩

/-! ## C26: `DecodeField` -/

/-- Masking with a shifted mask and shifting back is shifting first and masking
after. -/
theorem and_shiftLeft_shiftRight (w m s : Nat) :
    (w &&& (m <<< s)) >>> s = (w >>> s) &&& m := by
  apply Nat.eq_of_testBit_eq
  intro j
  simp [Nat.testBit_shiftRight, Nat.testBit_shiftLeft, Nat.testBit_and]

/-- A 32-bit word read as signed and written back is the same word. -/
theorem toU32_toS32 (m : Nat) (hm : m < 2 ^ 32) : toU32 (toS32 m) = m := by
  simp only [toU32, toS32]
  split <;> omega

/-- The arithmetic shift right by `s` agrees with the logical one on the low
`n` bits when `s + n ≤ 32`: the copies of the sign bit lie above them. -/
theorem sar_mod (w s n : Nat) (hw : w < 2 ^ 32) (hfit : s + n ≤ 32) :
    toU32 (toS32 w / 2 ^ s) % 2 ^ n = (w / 2 ^ s) % 2 ^ n := by
  have hP : 0 < 2 ^ s := Nat.two_pow_pos s
  have hPQ : 2 ^ (32 - s) * 2 ^ s = 2 ^ 32 := by
    rw [← pow_add]
    congr 1
    omega
  have hq : w / 2 ^ s < 2 ^ (32 - s) := (Nat.div_lt_iff_lt_mul hP).2 (by rw [hPQ]; exact hw)
  have hQle : 2 ^ (32 - s) ≤ 2 ^ 32 := Nat.pow_le_pow_right (by norm_num) (by omega)
  have hdvd : 2 ^ n ∣ 2 ^ 32 - 2 ^ (32 - s) :=
    Nat.dvd_sub' (pow_dvd_pow 2 (by omega)) (pow_dvd_pow 2 (by omega))
  have hdiv : (w : Int) / 2 ^ s = ((w / 2 ^ s : Nat) : Int) := by
    push_cast
    rfl
  by_cases hneg : w < 2 ^ 31
  · have h1 : toS32 w = (w : Int) := by
      simp only [toS32]
      split <;> omega
    have h3 : ∀ q Q : Nat, q < Q → Q ≤ 2 ^ 32 → toU32 (q : Int) = q := by
      intro q Q h1 h2
      simp only [toU32]
      omega
    rw [h1, hdiv, h3 _ _ hq hQle]
  · have h1 : toS32 w = (w : Int) + (-((2 ^ (32 - s) : Nat) : Int)) * 2 ^ s := by
      have hc := congrArg (Nat.cast : Nat → Int) hPQ
      push_cast at hc
      simp only [toS32]
      push_cast
      split
      · omega
      · have : ((w % 2 ^ 32 : Nat) : Int) = w := by omega
        push_cast at this
        rw [this]
        linarith
    have h3 : ∀ q Q : Nat, q < Q → Q ≤ 2 ^ 32 →
        toU32 ((q : Int) + -(Q : Int)) = q + (2 ^ 32 - Q) := by
      intro q Q h1 h2
      simp only [toU32]
      omega
    obtain ⟨t, ht⟩ := hdvd
    rw [h1, Int.add_mul_ediv_right _ _ (by positivity), hdiv, h3 _ _ hq hQle, ht,
      Nat.add_mul_mod_self_left]

/-- C26: for a field of `size ≥ 1` bits at `shift` with `shift + size ≤ 32` and
mask `kMask = (2^size - 1) << shift`, `DecodeField` emits `sar reg, shift` when
`shift != 0` and then `and reg, kMask >> shift`; from every 32-bit word `w` in
`reg`, the emitted code leaves `(w & kMask) >> shift` (the unsigned shift) in
`reg`, also when bit 31 of `w` is set. -/
theorem decode_field_extracts_field (s : State) (reg : Register) (shift size : Nat)
    (hsize : 1 ≤ size) (hfit : shift + size ≤ 32) (hw : s.regs reg < 2 ^ 32) :
    DecodeField shift (fieldMask shift size) reg
      = ⟨(if shift ≠ 0 then [.sar reg shift] else [])
          ++ [.and_ reg (toS32 (fieldMask shift size >>> shift))], .returned⟩ ∧
    (run s (DecodeField shift (fieldMask shift size) reg).code).1.regs reg
      = (s.regs reg &&& fieldMask shift size) >>> shift := by
  have hcode : DecodeField shift (fieldMask shift size) reg
      = ⟨(if shift ≠ 0 then [.sar reg shift] else [])
          ++ [.and_ reg (toS32 (fieldMask shift size >>> shift))], .returned⟩ := by
    by_cases h0 : shift = 0 <;> simp [DecodeField, h0, emit, skip, Emitted.andThen]
  have hmask : fieldMask shift size >>> shift = 2 ^ size - 1 := by
    simp [fieldMask]
  have hpow : 2 ^ size ≤ 2 ^ 32 := Nat.pow_le_pow_right (by norm_num) (by omega)
  have hpos : 0 < 2 ^ size := Nat.two_pow_pos size
  have hU : toU32 (toS32 (2 ^ size - 1)) = 2 ^ size - 1 := toU32_toS32 _ (by omega)
  have hrhs : (s.regs reg &&& fieldMask shift size) >>> shift
      = (s.regs reg / 2 ^ shift) % 2 ^ size := by
    rw [fieldMask, and_shiftLeft_shiftRight, Nat.and_pow_two_sub_one_eq_mod,
      Nat.shiftRight_eq_div_pow]
  have hsmall : ∀ x : Nat, (x % 2 ^ size) % 4294967296 = x % 2 ^ size := by
    intro x
    have := Nat.mod_lt x hpos
    omega
  refine ⟨hcode, ?_⟩
  rw [hcode, hmask, hrhs]
  by_cases h0 : shift = 0
  · subst h0
    simp [run, exec, State.setReg, hU, hsmall]
  · have hcount : shift % 32 = shift := by omega
    have hcount0 : ¬ shift % 32 = 0 := by omega
    simp only [ne_eq, h0, not_false_eq_true, if_true, List.singleton_append, run, exec,
      hcount0, if_false, State.setReg, hcount, hU]
    simp only [if_true, Nat.and_pow_two_sub_one_eq_mod]
    rw [sar_mod _ _ _ hw hfit]
    exact hsmall _

/-- C26 at the field of 3 bits at shift 29 (mask `0xe0000000`) from the word
`0xa0000001`, whose bit 31 is set: the emitted `sar eax, 29 ; and eax, 7`
leaves 5. -/
theorem decode_field_extracts_field_witness :
    (1 : Nat) ≤ 3 ∧ 29 + 3 ≤ 32 ∧ (stateOfWord 2684354561).regs .eax < 2 ^ 32 ∧
    (DecodeField 29 (fieldMask 29 3) .eax).code = [.sar .eax 29, .and_ .eax 7] ∧
    (run (stateOfWord 2684354561) (DecodeField 29 (fieldMask 29 3) .eax).code).1.regs .eax
      = 5 :=
  ⟨by decide, by decide, by decide, by decide,
   (decode_field_extracts_field (stateOfWord 2684354561) .eax 29 3 (by decide) (by decide)
      (by decide)).2⟩

/-! ## Facts shared by the key-factory proofs -/

/-- A hash read from a 32-bit raw hash field has 30 bits. -/
theorem Symbol.hash_lt (sym : Symbol) : sym.hash < 2 ^ 30 := by
  simp only [Symbol.hash, kHashShift, Nat.shiftRight_eq_div_pow]
  omega

/-- Clearing the `kH2Bits` low bits of a 32-bit word with the mask
`~((1 << kH2Bits) - 1)` leaves the word rounded down to a multiple of 128. -/
theorem and_clear_h2_bits (F : Nat) (hF : F < 2 ^ 32) :
    F &&& (2 ^ 32 - 1 - ((1 <<< kH2Bits) - 1)) = 2 ^ 7 * (F / 2 ^ 7) := by
  have hm : (2 ^ 32 - 1 - ((1 <<< kH2Bits) - 1) : Nat) = 2 ^ 32 - ((2 ^ 7 - 1) + 1) := by
    simp [kH2Bits]
  apply Nat.eq_of_testBit_eq
  intro i
  rw [Nat.testBit_and, hm, Nat.testBit_two_pow_sub_succ (by norm_num),
    Nat.testBit_two_pow_sub_one, Nat.testBit_mul_pow_two, ← Nat.shiftRight_eq_div_pow,
    Nat.testBit_shiftRight]
  by_cases h7 : i < 7
  · simp [h7, Nat.not_le_of_lt h7]
  · have h7' : 7 ≤ i := Nat.le_of_not_lt h7
    have hi : 7 + (i - 7) = i := by omega
    by_cases h32 : i < 32
    · simp [h7, h7', h32, hi]
    · have hlt : F < 2 ^ i :=
        lt_of_lt_of_le hF (Nat.pow_le_pow_right (by norm_num) (by omega))
      simp [h7, h7', h32, hi, Nat.testBit_lt_two_pow hlt]

/-- The hash computed with an H2 override `w < 128`: the hash so far rounded
down to a multiple of 128, plus `w`. -/
theorem clear_then_or_h2 (F w : Nat) (hF : F < 2 ^ 32) (hw : w < 128) :
    (F &&& (2 ^ 32 - 1 - ((1 <<< kH2Bits) - 1))) ||| H2 w = 128 * (F / 128) + w := by
  have hlt : w < 2 ^ 7 := by omega
  have h := Nat.mul_add_lt_is_or hlt (F / 2 ^ 7)
  have hw' : w % 128 = w := by omega
  rw [and_clear_h2_bits F hF, H2_eq_mod, hw', ← h]
  norm_num

/-- The computed hash stays below `2^30` when the symbol's own hash does and the
H1 override, if any, is below `2^23`. -/
theorem fakeHash_lt (A : Nat) (h1 h2 : Option Nat) (hA : A < 2 ^ 30)
    (hv : ∀ v, h1 = some v → v < 2 ^ 23) : fakeHash A h1 h2 < 2 ^ 30 := by
  have h1lt : (match h1 with
      | some override_with => ((override_with <<< kH2Bits) % 2 ^ 32) ||| H2 A
      | none => A) < 2 ^ 30 := by
    cases h1 with
    | none => exact hA
    | some v =>
        have := hv v rfl
        simp only []
        rw [shifted_override_or_h2 v A this]
        omega
  cases h2 with
  | none => simpa [fakeHash] using h1lt
  | some w =>
      simp only [fakeHash]
      refine Nat.or_lt_two_pow (lt_of_le_of_lt Nat.and_le_left h1lt) ?_
      rw [H2_eq_mod]
      omega

/-- A call for a string not in the cache, carrying an override, when the
`DCHECK_LT` on the H2 override passes or is compiled out and the computed hash
is below `2^30`: the call returns the new symbol, whose hash reads back as the
computed hash. -/
theorem CreateKeyWithHash_miss (dchecks : Bool) (isolate : Isolate) (keys : KeyCache)
    (key : Key) (hnew : keys.find key.str = none)
    (hover : (key.h1_override.isSome || key.h2_override.isSome) = true)
    (hh2 : dchecks = false ∨ ∀ w, key.h2_override = some w → w < 128)
    (hF : fakeHash ((isolate.NewSymbol.2.symbol isolate.NewSymbol.1).hash)
      key.h1_override key.h2_override < 2 ^ 30) :
    (CreateKeyWithHash dchecks isolate keys key).outcome = .returned ∧
    (CreateKeyWithHash dchecks isolate keys key).key_symbol = isolate.symbols.length ∧
    ((CreateKeyWithHash dchecks isolate keys key).isolate.symbol
        (CreateKeyWithHash dchecks isolate keys key).key_symbol).hash
      = fakeHash ((isolate.NewSymbol.2.symbol isolate.NewSymbol.1).hash)
          key.h1_override key.h2_override := by
  have hlt : (dchecks && key.h2_override.any
      (fun value => decide (¬ value < 1 <<< kH2Bits))) = false := by
    rcases hh2 with hd | hw
    · simp [hd]
    · cases h2 : key.h2_override with
      | none => simp
      | some w =>
          have := hw w h2
          simp [kH2Bits, this]
  have hlen0 : isolate.NewSymbol.1 < isolate.NewSymbol.2.symbols.length := by
    simp [Isolate.NewSymbol]
  have hfst : isolate.NewSymbol.1 = isolate.symbols.length := rfl
  cases hN : isolate.NewSymbol with
  | mk n I0 =>
    rw [hN] at hlen0 hfst hF
    simp only at hlen0 hfst hF
    simp only [CreateKeyWithHash, hnew, hN, hover, hlt, if_true, Bool.false_eq_true, if_false]
    have e1 := Isolate.symbol_setSymbol I0 n
      { raw_hash_field := (I0.symbol n).raw_hash_field, description := some key.str } hlen0
    have eA : Symbol.hash
        { raw_hash_field := (I0.symbol n).raw_hash_field, description := some key.str }
        = (I0.symbol n).hash := rfl
    have hlen1 : n < (I0.setSymbol n
        { raw_hash_field := (I0.symbol n).raw_hash_field,
          description := some key.str }).symbols.length := by
      simpa [Isolate.setSymbol] using hlen0
    have e2 : ∀ y, ((I0.setSymbol n
        { raw_hash_field := (I0.symbol n).raw_hash_field,
          description := some key.str }).setSymbol n y).symbol n = y :=
      fun y => Isolate.symbol_setSymbol _ n y hlen1
    simp only [e1, eA, e2]
    simp only [hash_of_shifted _ _ hF, ne_eq, not_true_eq_false, decide_False,
      Bool.and_false, Bool.false_eq_true, if_false, e2]
    exact ⟨trivial, hfst, trivial⟩

theorem KeyCache.find_assign_self (keys : KeyCache) (s : String) (e : CachedKey) :
    (keys.assign s e).find s = some e := by
  simp [KeyCache.assign, KeyCache.find, List.lookup_cons]

theorem KeyCache.find_filter_of_ne (keys : KeyCache) (s t : String) (h : s ≠ t) :
    KeyCache.find (keys.filter fun e => e.1 != t) s = keys.find s := by
  induction keys with
  | nil => rfl
  | cons a rest ih =>
      simp only [KeyCache.find] at ih ⊢
      cases a with
      | mk k v =>
        by_cases hat : k = t
        · have hsa : (s == k) = false := by simp [hat, h]
          have hf : (k != t) = false := by simp [hat]
          rw [List.filter_cons]
          simp only [hf, Bool.false_eq_true, if_false, List.lookup_cons, hsa, ih]
        · have hne : (k != t) = true := by simp [hat]
          rw [List.filter_cons]
          simp only [hne, if_true, List.lookup_cons, ih]

theorem KeyCache.find_assign_of_ne (keys : KeyCache) (s t : String) (e : CachedKey)
    (h : s ≠ t) : (keys.assign t e).find s = keys.find s := by
  have hst : (s == t) = false := by simp [h]
  have := KeyCache.find_filter_of_ne keys s t h
  simp only [KeyCache.find] at this
  simp [KeyCache.assign, KeyCache.find, List.lookup_cons, hst, this]

theorem KeyCache.filter_of_find_none (keys : KeyCache) (s : String)
    (h : keys.find s = none) : (keys.filter fun e => e.1 != s) = keys := by
  induction keys with
  | nil => rfl
  | cons a rest ih =>
      cases a with
      | mk k v =>
        simp only [KeyCache.find, List.lookup_cons] at h ih
        by_cases hk : (s == k) = true
        · simp [hk] at h
        · have hk' : (s == k) = false := by simpa using hk
          rw [hk'] at h
          have hks : k ≠ s := by
            intro hh; rw [hh] at hk; simp at hk
          simp [List.filter_cons, hks, ih h]

theorem KeyCache.assign_of_find_none (keys : KeyCache) (s : String) (e : CachedKey)
    (h : keys.find s = none) : keys.assign s e = (s, e) :: keys := by
  simp only [KeyCache.assign, KeyCache.filter_of_find_none keys s h]

/-- The cache after a call: unchanged on a hit, one assignment for the key
string on a miss, holding the fresh symbol and the two overrides. -/
theorem CreateKeyWithHash_keys (dchecks : Bool) (isolate : Isolate) (keys : KeyCache)
    (key : Key) :
    (CreateKeyWithHash dchecks isolate keys key).keys =
      match keys.find key.str with
      | none => keys.assign key.str
          ⟨isolate.symbols.length, key.h1_override, key.h2_override⟩
      | some _ => keys := by
  cases hf : keys.find key.str with
  | none =>
      simp only [CreateKeyWithHash, hf, Isolate.NewSymbol]
      split <;> (try split) <;> (try split) <;> rfl
  | some c =>
      simp only [CreateKeyWithHash, hf]
      split <;> (try split) <;> rfl

/-- A call for a cached string returns the cached symbol and changes neither
the isolate nor the cache, whatever the assertions say. -/
theorem CreateKeyWithHash_hit (dchecks : Bool) (isolate : Isolate) (keys : KeyCache)
    (key : Key) (c : CachedKey) (hf : keys.find key.str = some c) :
    (CreateKeyWithHash dchecks isolate keys key).key_symbol = c.key_symbol ∧
    (CreateKeyWithHash dchecks isolate keys key).isolate = isolate ∧
    (CreateKeyWithHash dchecks isolate keys key).keys = keys := by
  simp only [CreateKeyWithHash, hf]
  split <;> (try split) <;> exact ⟨rfl, rfl, rfl⟩

/-- A call for a string not in the cache returns the symbol created by
`NewSymbol`, and the isolate holds exactly one more symbol afterwards. -/
theorem CreateKeyWithHash_miss_symbol (dchecks : Bool) (isolate : Isolate)
    (keys : KeyCache) (key : Key) (hf : keys.find key.str = none) :
    (CreateKeyWithHash dchecks isolate keys key).key_symbol = isolate.symbols.length ∧
    (CreateKeyWithHash dchecks isolate keys key).isolate.symbols.length
      = isolate.symbols.length + 1 := by
  simp only [CreateKeyWithHash, hf, Isolate.NewSymbol]
  split <;> (try split) <;> (try split) <;>
    simp [Isolate.setSymbol]

/-- No call removes or changes the cache entry of a string. -/
theorem CreateKeyWithHash_find_preserved (dchecks : Bool) (isolate : Isolate)
    (keys : KeyCache) (key : Key) (s : String) (e : CachedKey)
    (hs : keys.find s = some e) :
    (CreateKeyWithHash dchecks isolate keys key).keys.find s = some e := by
  rw [CreateKeyWithHash_keys]
  cases hf : keys.find key.str with
  | some c => exact hs
  | none =>
      have hne : s ≠ key.str := by
        intro h; rw [h, hf] at hs; cases hs
      simp only []
      rw [KeyCache.find_assign_of_ne _ _ _ _ hne]; exact hs

/-- On a hit the call returns normally exactly when the assertions are compiled
out or the cached overrides are the requested ones. -/
theorem CreateKeyWithHash_hit_outcome (dchecks : Bool) (isolate : Isolate)
    (keys : KeyCache) (key : Key) (c : CachedKey) (hf : keys.find key.str = some c) :
    (CreateKeyWithHash dchecks isolate keys key).outcome = .returned ↔
      (dchecks = false ∨
        (c.h1_override = key.h1_override ∧ c.h2_override = key.h2_override)) := by
  simp only [CreateKeyWithHash, hf]
  cases dchecks
  · simp
  · by_cases h1 : c.h1_override = key.h1_override
    · by_cases h2 : c.h2_override = key.h2_override
      · simp [h1, h2]
      · simp [h1, h2]
    · simp [h1]

/-- After any call the cache holds an entry for the key string whose symbol is
the returned one; if the call returned normally with assertions compiled in, the
entry holds the requested overrides. -/
theorem CreateKeyWithHash_entry (dchecks : Bool) (isolate : Isolate) (keys : KeyCache)
    (key : Key) :
    ∃ c, (CreateKeyWithHash dchecks isolate keys key).keys.find key.str = some c ∧
      c.key_symbol = (CreateKeyWithHash dchecks isolate keys key).key_symbol ∧
      ((CreateKeyWithHash dchecks isolate keys key).outcome = .returned →
        (dchecks = false ∨
          (c.h1_override = key.h1_override ∧ c.h2_override = key.h2_override))) := by
  cases hf : keys.find key.str with
  | none =>
      refine ⟨⟨isolate.symbols.length, key.h1_override, key.h2_override⟩, ?_, ?_, ?_⟩
      · rw [CreateKeyWithHash_keys, hf]
        exact KeyCache.find_assign_self _ _ _
      · exact (CreateKeyWithHash_miss_symbol dchecks isolate keys key hf).1.symm
      · intro _; exact Or.inr ⟨rfl, rfl⟩
  | some c =>
      have hh := CreateKeyWithHash_hit dchecks isolate keys key c hf
      refine ⟨c, ?_, hh.1.symm, ?_⟩
      · rw [hh.2.2]; exact hf
      · exact (CreateKeyWithHash_hit_outcome dchecks isolate keys key c hf).1

/-! ## C21: the H2 override keeps H1 -/

theorem fakeHash_h2 (A : Nat) (h1 : Option Nat) (w : Nat) (hA : A < 2 ^ 30)
    (hv : ∀ v, h1 = some v → v < 2 ^ 23) (hw : w < 128) :
    fakeHash A h1 (some w) = 128 * (fakeHash A h1 none / 128) + w := by
  cases h1 with
  | none =>
      simp only [fakeHash]
      exact clear_then_or_h2 A w (by omega) hw
  | some v =>
      have hv' := hv v rfl
      simp only [fakeHash]
      refine clear_then_or_h2 _ w ?_ hw
      rw [shifted_override_or_h2 v A hv']; omega

theorem fakeHash_h1 (A v : Nat) (hv : v < 2 ^ 23) :
    fakeHash A (some v) none = 128 * v + A % 128 := by
  simp only [fakeHash]
  exact shifted_override_or_h2 v A hv

/-- C21: for a key string not yet in the cache whose H2 override `w` is below
`2^kH2Bits = 128` (and whose H1 override, when given, is below `2^23`), the call
returns and the returned symbol's hash `h` has `H2 h = w`, while `H1 h` is the H1
of the hash before the H2 step: the H1 override when one is given, the H1 of the
symbol's actual hash otherwise. -/
theorem create_key_h2_override_keeps_h1 (dchecks : Bool) (isolate : Isolate)
    (keys : KeyCache) (key : Key) (w : Nat)
    (hnew : keys.find key.str = none) (hh2 : key.h2_override = some w)
    (hw : w < 2 ^ kH2Bits) (hv : ∀ v, key.h1_override = some v → v < 2 ^ 23) :
    (CreateKeyWithHash dchecks isolate keys key).outcome = .returned ∧
    H2 ((CreateKeyWithHash dchecks isolate keys key).isolate.symbol
        (CreateKeyWithHash dchecks isolate keys key).key_symbol).hash = w ∧
    H1 ((CreateKeyWithHash dchecks isolate keys key).isolate.symbol
        (CreateKeyWithHash dchecks isolate keys key).key_symbol).hash
      = H1 (fakeHash (isolate.NewSymbol.2.symbol isolate.NewSymbol.1).hash
          key.h1_override none) ∧
    H1 ((CreateKeyWithHash dchecks isolate keys key).isolate.symbol
        (CreateKeyWithHash dchecks isolate keys key).key_symbol).hash
      = (match key.h1_override with
         | some v => v
         | none => H1 (isolate.NewSymbol.2.symbol isolate.NewSymbol.1).hash) := by
  have hw' : w < 128 := by simpa [kH2Bits] using hw
  have hA := Symbol.hash_lt (isolate.NewSymbol.2.symbol isolate.NewSymbol.1)
  have hF := fakeHash_lt _ key.h1_override key.h2_override hA hv
  have hm := CreateKeyWithHash_miss dchecks isolate keys key hnew (by simp [hh2])
    (Or.inr (fun w2 h => by rw [hh2] at h; cases h; exact hw')) hF
  refine ⟨hm.1, ?_⟩
  rw [hm.2.2, hh2, fakeHash_h2 _ _ w hA hv hw', H1_eq_div, H1_eq_div, H2_eq_mod]
  refine ⟨by omega, by omega, ?_⟩
  cases h1 : key.h1_override with
  | none => simp only [fakeHash, H1_eq_div]; omega
  | some v =>
      have hv' := hv v h1
      rw [fakeHash_h1 _ v hv']
      simp only []
      omega

theorem create_key_h2_override_keeps_h1_witness :
    (CreateKeyWithHash true isolateEmpty [] ⟨"a", some 5, some 3⟩).outcome = .returned ∧
    H2 ((CreateKeyWithHash true isolateEmpty [] ⟨"a", some 5, some 3⟩).isolate.symbol
        (CreateKeyWithHash true isolateEmpty [] ⟨"a", some 5, some 3⟩).key_symbol).hash = 3 ∧
    H1 ((CreateKeyWithHash true isolateEmpty [] ⟨"a", some 5, some 3⟩).isolate.symbol
        (CreateKeyWithHash true isolateEmpty [] ⟨"a", some 5, some 3⟩).key_symbol).hash
      = H1 (fakeHash (isolateEmpty.NewSymbol.2.symbol isolateEmpty.NewSymbol.1).hash
          (some 5) none) ∧
    H1 ((CreateKeyWithHash true isolateEmpty [] ⟨"a", some 5, some 3⟩).isolate.symbol
        (CreateKeyWithHash true isolateEmpty [] ⟨"a", some 5, some 3⟩).key_symbol).hash
      = 5 :=
  create_key_h2_override_keeps_h1 true isolateEmpty [] ⟨"a", some 5, some 3⟩ 3
    (by decide) rfl (by decide) (by intro v h; cases h; decide)


/-! ## C22: the hash read back after the override is written -/

/-- C22, counterexample: with the H1 override `2^23` the computed hash
`2^30 + 104` does not fit the 30 hash bits of the 32-bit field; the shift by
`kHashShift` drops its top bit, so the symbol reads back `104`. With assertions
compiled out the call returns with the two values different; with assertions
compiled in `DCHECK_EQ` fails. -/
theorem create_key_h1_override_too_wide :
    fakeHash (isolateEmpty.NewSymbol.2.symbol isolateEmpty.NewSymbol.1).hash
      (some 8388608) none = 1073741928 ∧
    (CreateKeyWithHash false isolateEmpty [] ⟨"a", some 8388608, none⟩).outcome
      = .returned ∧
    ((CreateKeyWithHash false isolateEmpty [] ⟨"a", some 8388608, none⟩).isolate.symbol
      (CreateKeyWithHash false isolateEmpty [] ⟨"a", some 8388608, none⟩).key_symbol).hash
      = 104 ∧
    (CreateKeyWithHash true isolateEmpty [] ⟨"a", some 8388608, none⟩).outcome
      = .dcheckFailed := by
  decide

/-- C22, amended: for a key string not yet in the cache carrying an override,
whose H1 override (when given) is below `2^23` and whose H2 override (when given,
and assertions are compiled in) is below `2^kH2Bits`, the call returns and the
hash read back from the symbol equals the computed fake hash. -/
theorem create_key_read_back_equals_fake_hash (dchecks : Bool) (isolate : Isolate)
    (keys : KeyCache) (key : Key) (hnew : keys.find key.str = none)
    (hover : (key.h1_override.isSome || key.h2_override.isSome) = true)
    (hv : ∀ v, key.h1_override = some v → v < 2 ^ 23)
    (hw : dchecks = true → ∀ w, key.h2_override = some w → w < 2 ^ kH2Bits) :
    (CreateKeyWithHash dchecks isolate keys key).outcome = .returned ∧
    ((CreateKeyWithHash dchecks isolate keys key).isolate.symbol
        (CreateKeyWithHash dchecks isolate keys key).key_symbol).hash
      = fakeHash (isolate.NewSymbol.2.symbol isolate.NewSymbol.1).hash
          key.h1_override key.h2_override := by
  have hA := Symbol.hash_lt (isolate.NewSymbol.2.symbol isolate.NewSymbol.1)
  have hF := fakeHash_lt _ key.h1_override key.h2_override hA hv
  have hd : dchecks = false ∨ ∀ w, key.h2_override = some w → w < 128 := by
    cases dchecks
    · exact Or.inl rfl
    · exact Or.inr (fun w h => by simpa [kH2Bits] using hw rfl w h)
  have hm := CreateKeyWithHash_miss dchecks isolate keys key hnew hover hd hF
  exact ⟨hm.1, hm.2.2⟩

theorem create_key_read_back_equals_fake_hash_witness :
    (CreateKeyWithHash true isolateEmpty [] ⟨"a", some 8388607, some 127⟩).outcome
      = .returned ∧
    ((CreateKeyWithHash true isolateEmpty [] ⟨"a", some 8388607, some 127⟩).isolate.symbol
        (CreateKeyWithHash true isolateEmpty [] ⟨"a", some 8388607, some 127⟩).key_symbol).hash
      = fakeHash (isolateEmpty.NewSymbol.2.symbol isolateEmpty.NewSymbol.1).hash
          (some 8388607) (some 127) :=
  create_key_read_back_equals_fake_hash true isolateEmpty [] ⟨"a", some 8388607, some 127⟩
    (by decide) (by decide) (by intro v h; cases h; decide)
    (by intro _ w h; cases h; decide)

/-! ## C23: keys are interned by string -/

/-- A sequence of calls keeps the cache entry of a string. -/
theorem CreateKeysWithHash_find_preserved (dchecks : Bool) (mid : List Key)
    (s : String) (e : CachedKey) :
    ∀ (isolate : Isolate) (keys : KeyCache), keys.find s = some e →
      (CreateKeysWithHash dchecks isolate keys mid).2.find s = some e := by
  induction mid with
  | nil => intro isolate keys hs; exact hs
  | cons k rest ih =>
      intro isolate keys hs
      exact ih _ _ (CreateKeyWithHash_find_preserved dchecks isolate keys k s e hs)

/-- C23: after a first call with a key, whatever calls come in between, a later
call with the same key returns the symbol of the first call and leaves the
isolate (so the symbol count and every hash field) and the cache unchanged, and
it returns normally whenever the first call did; a first call for a string not
in the cache puts exactly one entry in front of the cache, for that string,
holding the returned symbol and the two overrides, and creates one symbol. -/
theorem create_key_interns_by_string (dchecks : Bool) (isolate : Isolate)
    (keys : KeyCache) (key : Key) (mid : List Key) :
    ((CreateKeyWithHash dchecks
        (CreateKeysWithHash dchecks (CreateKeyWithHash dchecks isolate keys key).isolate
          (CreateKeyWithHash dchecks isolate keys key).keys mid).1
        (CreateKeysWithHash dchecks (CreateKeyWithHash dchecks isolate keys key).isolate
          (CreateKeyWithHash dchecks isolate keys key).keys mid).2 key).key_symbol
      = (CreateKeyWithHash dchecks isolate keys key).key_symbol) ∧
    ((CreateKeyWithHash dchecks
        (CreateKeysWithHash dchecks (CreateKeyWithHash dchecks isolate keys key).isolate
          (CreateKeyWithHash dchecks isolate keys key).keys mid).1
        (CreateKeysWithHash dchecks (CreateKeyWithHash dchecks isolate keys key).isolate
          (CreateKeyWithHash dchecks isolate keys key).keys mid).2 key).isolate
      = (CreateKeysWithHash dchecks (CreateKeyWithHash dchecks isolate keys key).isolate
          (CreateKeyWithHash dchecks isolate keys key).keys mid).1) ∧
    ((CreateKeyWithHash dchecks
        (CreateKeysWithHash dchecks (CreateKeyWithHash dchecks isolate keys key).isolate
          (CreateKeyWithHash dchecks isolate keys key).keys mid).1
        (CreateKeysWithHash dchecks (CreateKeyWithHash dchecks isolate keys key).isolate
          (CreateKeyWithHash dchecks isolate keys key).keys mid).2 key).keys
      = (CreateKeysWithHash dchecks (CreateKeyWithHash dchecks isolate keys key).isolate
          (CreateKeyWithHash dchecks isolate keys key).keys mid).2) ∧
    ((CreateKeyWithHash dchecks isolate keys key).outcome = .returned →
      (CreateKeyWithHash dchecks
        (CreateKeysWithHash dchecks (CreateKeyWithHash dchecks isolate keys key).isolate
          (CreateKeyWithHash dchecks isolate keys key).keys mid).1
        (CreateKeysWithHash dchecks (CreateKeyWithHash dchecks isolate keys key).isolate
          (CreateKeyWithHash dchecks isolate keys key).keys mid).2 key).outcome
        = .returned) ∧
    (keys.find key.str = none →
      (CreateKeyWithHash dchecks isolate keys key).keys
        = (key.str, ⟨(CreateKeyWithHash dchecks isolate keys key).key_symbol,
            key.h1_override, key.h2_override⟩) :: keys ∧
      (CreateKeyWithHash dchecks isolate keys key).isolate.symbols.length
        = isolate.symbols.length + 1) := by
  obtain ⟨c, hc, hsym, hout⟩ := CreateKeyWithHash_entry dchecks isolate keys key
  have hpres := CreateKeysWithHash_find_preserved dchecks mid key.str c
    (CreateKeyWithHash dchecks isolate keys key).isolate
    (CreateKeyWithHash dchecks isolate keys key).keys hc
  have hhit := CreateKeyWithHash_hit dchecks
    (CreateKeysWithHash dchecks (CreateKeyWithHash dchecks isolate keys key).isolate
      (CreateKeyWithHash dchecks isolate keys key).keys mid).1 _ key c hpres
  refine ⟨hhit.1.trans hsym, hhit.2.1, hhit.2.2, ?_, ?_⟩
  · intro h1
    exact (CreateKeyWithHash_hit_outcome dchecks _ _ key c hpres).2 (hout h1)
  · intro hnew
    have hs := CreateKeyWithHash_miss_symbol dchecks isolate keys key hnew
    refine ⟨?_, hs.2⟩
    rw [CreateKeyWithHash_keys, hnew, hs.1]
    exact KeyCache.assign_of_find_none _ _ _ hnew

theorem create_key_interns_by_string_witness :
    (CreateKeyWithHash true
        (CreateKeysWithHash true
          (CreateKeyWithHash true isolateEmpty [] ⟨"a", some 5, some 3⟩).isolate
          (CreateKeyWithHash true isolateEmpty [] ⟨"a", some 5, some 3⟩).keys
          [⟨"b", none, none⟩]).1
        (CreateKeysWithHash true
          (CreateKeyWithHash true isolateEmpty [] ⟨"a", some 5, some 3⟩).isolate
          (CreateKeyWithHash true isolateEmpty [] ⟨"a", some 5, some 3⟩).keys
          [⟨"b", none, none⟩]).2 ⟨"a", some 5, some 3⟩).outcome = .returned ∧
    (CreateKeyWithHash true isolateEmpty [] ⟨"a", some 5, some 3⟩).keys
      = [("a", ⟨(CreateKeyWithHash true isolateEmpty [] ⟨"a", some 5, some 3⟩).key_symbol,
          some 5, some 3⟩)] :=
  ⟨(create_key_interns_by_string true isolateEmpty [] ⟨"a", some 5, some 3⟩
      [⟨"b", none, none⟩]).2.2.2.1 (by decide),
   ((create_key_interns_by_string true isolateEmpty [] ⟨"a", some 5, some 3⟩
      [⟨"b", none, none⟩]).2.2.2.2 (by decide)).1⟩


/-! ## C24: the details built by `MakeDistinctDetails` -/

/-- C24, evaluation: `distinct_property_details` has 32 entries, but the outer
loop runs over the accessor kind twice, so entry `i + 16` equals entry `i` for
every `i < 16`; entries 0 and 16 are both the accessor, const, no-attribute
details, the vector has a repeated value and holds only 16 distinct ones. -/
theorem distinct_property_details_repeat :
    distinct_property_details.length = 32 ∧
    distinct_property_details[0]? = some ⟨.kAccessor, .kConst, 0⟩ ∧
    distinct_property_details[16]? = some ⟨.kAccessor, .kConst, 0⟩ ∧
    (∀ i, i < 16 → distinct_property_details[i + 16]? = distinct_property_details[i]?) ∧
    ¬ distinct_property_details.Nodup ∧
    distinct_property_details.dedup.length = 16 ∧
    (distinct_property_details.take 16).Nodup := by
  decide

end V8
